import Mathlib

/-!
# Verification of the ClusterProfile reconciler (addon-controller)

A shallow embedding of the ClusterProfile controller
(`controllers/clusterprofile_controller.go`) together with proofs of the
behavioural claims made by the specification.  Kubernetes API interactions
are modelled by explicit state passing over lists of typed objects; list
operations that can fail at the API server take an explicit fault flag or
an `Except` listing result.
-/

namespace AddonController

/-- `corev1.ObjectReference` restricted to the fields the controller sets. -/
structure ObjectReference where
  kind : String
  ns : String
  name : String
deriving DecidableEq, Repr, Inhabited

/-- `metav1.OwnerReference` restricted to the fields the controller sets. -/
structure OwnerReference where
  kind : String
  name : String
  apiVersion : String
  uid : String
deriving DecidableEq, Repr, Inhabited

/-- `configv1alpha1.SyncMode`. -/
inductive SyncMode
  | continuous
  | oneTime
  | dryRun
deriving DecidableEq, Repr, Inhabited

/-- `configv1alpha1.ClusterProfileSpec`: the label selector, the sync mode
and the opaque feature payload (Helm charts, manifest refs) that the engine
forwards verbatim; the payload is abstracted by a number since the engine
only copies and compares it. -/
structure ClusterProfileSpec where
  clusterSelector : String
  syncMode : SyncMode
  payload : Nat
deriving DecidableEq, Repr, Inhabited

/-- `configv1alpha1.ClusterProfile` with its metadata, spec and the
`Status.MatchingClusterRefs` list. -/
structure ClusterProfile where
  name : String
  kind : String
  apiVersion : String
  uid : String
  annotations : List (String × String)
  spec : ClusterProfileSpec
  matchingClusterRefs : List ObjectReference
  finalizers : List String
deriving DecidableEq, Repr, Inhabited

/-- A CAPI `clusterv1.Cluster`: labels and the deletion timestamp
(`0` models `IsZero`). -/
structure Cluster where
  kind : String
  ns : String
  name : String
  labels : List (String × String)
  deletionTimestamp : Nat
deriving DecidableEq, Repr, Inhabited

/-- Modelled from the spec: the label key `ClusterProfileLabelName`
(declared elsewhere in the repository) put on every ClusterSummary and
ClusterReport, "value = profile name". -/
def clusterProfileLabelName : String := "projectsveltos.io/cluster-profile-name"

/-- Modelled from the spec: the `ClusterProfileFinalizer` string
(declared elsewhere in the repository) "held on ClusterProfile while
derived state remains". -/
def clusterProfileFinalizerName : String := "clusterprofilefinalizer.projectsveltos.io"

/-- Modelled from the spec: `configv1alpha1.ClusterProfileKind`
(declared elsewhere in the repository). -/
def clusterProfileKind : String := "ClusterProfile"

/-! ## Label selectors

`k8s.io/apimachinery/pkg/labels` is an external dependency, not part of
this repository's sources.  It is modelled from the spec: a selector is a
comma separated list of `key=value` requirements, and, per the spec,
"an unparseable selector yields the empty matcher and matches nothing". -/

/-- A parsed label selector: a list of `key=value` requirements. -/
structure Selector where
  requirements : List (String × String)
deriving DecidableEq, Repr, Inhabited

/-- Splitting a character list at a separator character. -/
def splitListOn (sep : Char) : List Char → List (List Char)
  | [] => [[]]
  | c :: rest =>
    let r := splitListOn sep rest
    if c = sep then [] :: r
    else
      match r with
      | [] => [[c]]
      | h :: t => (c :: h) :: t

/-- Modelled from the spec: one `key=value` requirement of a selector
string; anything else fails to parse. -/
def parseRequirement (p : List Char) : Option (String × String) :=
  match splitListOn '=' p with
  | [k, v] => if k = [] then none else some (⟨k⟩, ⟨v⟩)
  | _ => none

/-- Modelled from the spec: the external selector parser (`labels.Parse`).
`none` is a parse failure. -/
def labelsParse (s : String) : Option Selector :=
  match s.toList with
  | [] => some ⟨[]⟩
  | cs => ((splitListOn ',' cs).mapM parseRequirement).map Selector.mk

/-- `Selector.Matches`: every requirement is present among the labels. -/
def selectorMatches (sel : Selector) (lbls : List (String × String)) : Bool :=
  sel.requirements.all (fun kv => lbls.contains kv)

/-- Matching through the result of `labels.Parse` as the Go code uses it
(`parsedSelector.Matches`): modelled from the spec, an unparseable
selector "yields the empty matcher and matches nothing". -/
def parsedMatches (p : Option Selector) (lbls : List (String × String)) : Bool :=
  match p with
  | none => false
  | some sel => selectorMatches sel lbls

/-- The object reference `getMatchingClusters` appends for a matching
cluster. -/
def clusterRef (c : Cluster) : ObjectReference :=
  ⟨c.kind, c.ns, c.name⟩

/-- `getMatchingClusters`: lists all clusters (the listing outcome is the
explicit argument), ignores the selector parse error, skips clusters with
a non-zero deletion timestamp and keeps those the parsed selector
matches. -/
def getMatchingClusters (listResult : Except String (List Cluster))
    (selector : String) : Except String (List ObjectReference) :=
  match listResult with
  | .error e => .error e
  | .ok clusterList =>
    let parsedSelector := labelsParse selector
    .ok (clusterList.filterMap (fun cluster =>
      if cluster.deletionTimestamp ≠ 0 then none
      else if parsedMatches parsedSelector cluster.labels then
        some (clusterRef cluster)
      else none))

/-! ## Derived objects and the API state -/

/-- `configv1alpha1.ClusterSummary`: metadata plus the spec fields the
controller reads and writes (`ClusterNamespace`, `ClusterName`,
`ClusterProfileSpec`). -/
structure ClusterSummary where
  ns : String
  name : String
  labels : List (String × String)
  annotations : List (String × String)
  ownerReferences : List OwnerReference
  clusterNamespace : String
  clusterName : String
  clusterProfileSpec : ClusterProfileSpec
deriving DecidableEq, Repr, Inhabited

/-- `configv1alpha1.ClusterReport`: metadata plus
`Spec.ClusterNamespace`/`Spec.ClusterName`. -/
structure ClusterReport where
  ns : String
  name : String
  labels : List (String × String)
  clusterNamespace : String
  clusterName : String
deriving DecidableEq, Repr, Inhabited

/-- One entry of `ClusterConfiguration.Status.ClusterProfileResources`;
the feature list the downstream deployer writes is abstracted by a
number. -/
structure ClusterProfileResource where
  clusterProfileName : String
  features : Nat
deriving DecidableEq, Repr, Inhabited

/-- `configv1alpha1.ClusterConfiguration`: owner references plus the
`Status.ClusterProfileResources` slice. -/
structure ClusterConfiguration where
  ns : String
  name : String
  ownerReferences : List OwnerReference
  clusterProfileResources : List ClusterProfileResource
deriving DecidableEq, Repr, Inhabited

/-- The durable API-server state the reconciler reads and writes. -/
structure ApiState where
  clusterSummaries : List ClusterSummary
  clusterReports : List ClusterReport
  clusterConfigurations : List ClusterConfiguration
deriving DecidableEq, Repr, Inhabited

/-- Whether a label map carries the given key/value pair
(`client.MatchingLabels`). -/
def hasLabel (lbls : List (String × String)) (k v : String) : Bool :=
  lbls.contains (k, v)

/-- The API group of an `APIVersion` string (`schema.ParseGroupVersion`):
`group/version` has the group before the slash, anything else has the
empty group. -/
def groupOf (apiVersion : String) : String :=
  match splitListOn '/' apiVersion.toList with
  | [g, _] => ⟨g⟩
  | _ => ""

/-- `referSameObject` from `sigs.k8s.io/cluster-api/util`: two owner
references denote the same owner when group, kind and name agree. -/
def sameOwner (a b : OwnerReference) : Bool :=
  groupOf a.apiVersion == groupOf b.apiVersion && a.kind == b.kind && a.name == b.name

/-- `util.IsOwnedByObject` specialised to a ClusterProfile owner: some
owner reference has the profile's group, kind and name. -/
def isOwnedBy (refs : List OwnerReference) (p : ClusterProfile) : Bool :=
  refs.any (fun r =>
    groupOf r.apiVersion == groupOf p.apiVersion && r.kind == p.kind && r.name == p.name)

/-- The owner reference the controller builds for a profile
(kind, UID, APIVersion, name). -/
def profileOwnerRef (p : ClusterProfile) : OwnerReference :=
  ⟨p.kind, p.name, p.apiVersion, p.uid⟩

/-- `util.RemoveOwnerRef`: drop the first owner reference denoting the
same owner. -/
def removeOwnerRef : List OwnerReference → OwnerReference → List OwnerReference
  | [], _ => []
  | r :: rest, ref => if sameOwner r ref then rest else r :: removeOwnerRef rest ref

/-- `util.EnsureOwnerRef`: overwrite the first owner reference denoting
the same owner, else append. -/
def ensureOwnerRef : List OwnerReference → OwnerReference → List OwnerReference
  | [], ref => [ref]
  | r :: rest, ref => if sameOwner r ref then ref :: rest else r :: ensureOwnerRef rest ref

/-! ## ClusterReport operations -/

/-- Modelled from the spec: `getClusterReportName` (declared elsewhere in
the repository), a deterministic name from (profile name, cluster name). -/
def clusterReportName (profileName clusterName : String) : String :=
  profileName ++ "--" ++ clusterName

/-- `createClusterReport`: create the labeled report for a matching
cluster, treating an already existing report as success. -/
def createClusterReport (st : ApiState) (p : ClusterProfile)
    (cluster : ObjectReference) : ApiState × Option String :=
  let report : ClusterReport :=
    ⟨cluster.ns, clusterReportName p.name cluster.name,
      [(clusterProfileLabelName, p.name)], cluster.ns, cluster.name⟩
  if st.clusterReports.any (fun cr => cr.ns == report.ns && cr.name == report.name) then
    (st, none)
  else
    ({ st with clusterReports := st.clusterReports ++ [report] }, none)

/-- The loop of `createClusterReports` over `Status.MatchingClusterRefs`. -/
def createReportsLoop (p : ClusterProfile) :
    List ObjectReference → ApiState → ApiState × Option String
  | [], st => (st, none)
  | c :: rest, st =>
    match createClusterReport st p c with
    | (st', some err) => (st', some err)
    | (st', none) => createReportsLoop p rest st'

/-- `createClusterReports`: one report per matching cluster. -/
def createClusterReports (st : ApiState) (p : ClusterProfile) : ApiState × Option String :=
  createReportsLoop p p.matchingClusterRefs st

/-- `cleanClusterReports`: list the reports labeled with the profile
(`fault` makes the listing fail) and delete each, ignoring not-found. -/
def cleanClusterReports (fault : Bool) (st : ApiState) (p : ClusterProfile) :
    ApiState × Option String :=
  if fault then (st, some "listError")
  else
    let kept := st.clusterReports.filter
      (fun cr => !(hasLabel cr.labels clusterProfileLabelName p.name))
    ({ st with clusterReports := kept }, none)

/-- `updateClusterReports`: in DryRun mode create reports for the matching
clusters, otherwise delete every report labeled with this profile. -/
def updateClusterReports (fault : Bool) (st : ApiState) (p : ClusterProfile) :
    ApiState × Option String :=
  if p.spec.syncMode = SyncMode.dryRun then createClusterReports st p
  else cleanClusterReports fault st p

/-! ## ClusterSummary operations -/

/-- Modelled from the spec: `GetClusterSummaryName` (declared elsewhere in
the repository), "name = deterministic function of (profile name, cluster
name)"; the spec's scenarios call the summary `p1--c1`. -/
def clusterSummaryName (profileName clusterName : String) : String :=
  profileName ++ "--" ++ clusterName

/-- Lookup in a summary list by namespace and name. -/
def findByKey : List ClusterSummary → String → String → Option ClusterSummary
  | [], _, _ => none
  | s :: rest, ns, name =>
    if s.ns == ns && s.name == name then some s else findByKey rest ns name

/-- Lookup of a ClusterSummary by namespace and name (`r.Get`). -/
def findSummary (st : ApiState) (ns name : String) : Option ClusterSummary :=
  findByKey st.clusterSummaries ns name

/-- Modelled from the spec: `getClusterSummary` (declared elsewhere in the
repository) fetches the summary for (profile, cluster) at its
deterministic name inside the cluster's namespace. -/
def getClusterSummary (st : ApiState) (profileName clusterNamespace clusterName : String) :
    Except String ClusterSummary :=
  match findSummary st clusterNamespace (clusterSummaryName profileName clusterName) with
  | none => .error "notFound"
  | some s => .ok s

/-- Replace the first summary with the new object's namespace/name. -/
def replaceSummary : List ClusterSummary → ClusterSummary → List ClusterSummary
  | [], _ => []
  | s :: rest, new =>
    if s.ns == new.ns && s.name == new.name then new :: rest
    else s :: replaceSummary rest new

/-- `r.Update` on a ClusterSummary: not-found error when the object is
gone, otherwise replace the stored version. -/
def updateSummaryObj (st : ApiState) (new : ClusterSummary) : ApiState × Option String :=
  match findSummary st new.ns new.name with
  | none => (st, some "notFound")
  | some _ => ({ st with clusterSummaries := replaceSummary st.clusterSummaries new }, none)

/-- Remove the first summary with the given namespace/name. -/
def removeSummary : List ClusterSummary → String → String → List ClusterSummary
  | [], _, _ => []
  | s :: rest, ns, name =>
    if s.ns == ns && s.name == name then rest
    else s :: removeSummary rest ns name

/-- `deleteClusterSummary` (`r.Delete`): not-found error when the object
is gone, otherwise remove it. -/
def deleteClusterSummary (st : ApiState) (cs : ClusterSummary) : ApiState × Option String :=
  match findSummary st cs.ns cs.name with
  | none => (st, some "notFound")
  | some _ => ({ st with clusterSummaries := removeSummary st.clusterSummaries cs.ns cs.name }, none)

/-- The value `updateClusterSummarySyncMode` writes: the summary with its
embedded SyncMode set to the profile's. -/
def alignSummary (p : ClusterProfile) (s : ClusterSummary) : ClusterSummary :=
  { s with clusterProfileSpec := { s.clusterProfileSpec with syncMode := p.spec.syncMode } }

/-- `updateClusterSummarySyncMode`: re-fetch the current summary, set its
embedded SyncMode to the profile's and update. -/
def updateClusterSummarySyncMode (st : ApiState) (p : ClusterProfile) (cs : ClusterSummary) :
    ApiState × Option String :=
  match findSummary st cs.ns cs.name with
  | none => (st, some "notFound")
  | some current => updateSummaryObj st (alignSummary p current)

/-- `scope.IsOneTimeSync`, modelled from the spec: the profile's sync mode
is OneTime. -/
def isOneTimeSync (p : ClusterProfile) : Bool :=
  p.spec.syncMode == SyncMode.oneTime

/-- `updateClusterSummary`: in OneTime mode do nothing; otherwise re-fetch
the summary and, when the profile spec or annotations drifted, write them
through. -/
def updateClusterSummary (st : ApiState) (p : ClusterProfile) (cluster : ObjectReference) :
    ApiState × Option String :=
  if isOneTimeSync p then (st, none)
  else
    match getClusterSummary st p.name cluster.ns cluster.name with
    | .error e => (st, some e)
    | .ok cs =>
      if p.spec = cs.clusterProfileSpec ∧ p.annotations = cs.annotations then (st, none)
      else updateSummaryObj st { cs with annotations := p.annotations, clusterProfileSpec := p.spec }

/-- The `"%s-%s"` cluster key used by `cleanClusterSummaries`. -/
def clusterInfoKey (ns name : String) : String :=
  ns ++ "-" ++ name

/-- The loop body of `cleanClusterSummaries` over the listed summaries:
for every summary owned by the profile, delete it when its cluster is not
a match anymore, then (in either case) align its SyncMode. -/
def cleanSummariesLoop (p : ClusterProfile) (matching : List String) :
    List ClusterSummary → ApiState → ApiState × Option String
  | [], st => (st, none)
  | cs :: rest, st =>
    if isOwnedBy cs.ownerReferences p then
      let step1 :=
        if clusterInfoKey cs.clusterNamespace cs.clusterName ∈ matching then (st, none)
        else deleteClusterSummary st cs
      match step1 with
      | (st1, some e) => (st1, some e)
      | (st1, none) =>
        match updateClusterSummarySyncMode st1 p cs with
        | (st2, some e) => (st2, some e)
        | (st2, none) => cleanSummariesLoop p matching rest st2
    else cleanSummariesLoop p matching rest st

/-- Listing of the summaries labeled with a profile; `fault` makes the
listing fail. -/
def listSummariesByLabel (fault : Bool) (st : ApiState) (profileName : String) :
    Except String (List ClusterSummary) :=
  if fault then .error "listError"
  else .ok (st.clusterSummaries.filter (fun s => hasLabel s.labels clusterProfileLabelName profileName))

/-- `cleanClusterSummaries`: build the match-key set, list the labeled
summaries and run the prune/align loop. -/
def cleanClusterSummaries (fault : Bool) (st : ApiState) (p : ClusterProfile) :
    ApiState × Option String :=
  let matching := p.matchingClusterRefs.map (fun r => clusterInfoKey r.ns r.name)
  match listSummariesByLabel fault st p.name with
  | .error e => (st, some e)
  | .ok items => cleanSummariesLoop p matching items st

/-! ## ClusterConfiguration operations -/

/-- Lookup in a configuration list by namespace and name. -/
def findConfigByKey : List ClusterConfiguration → String → String → Option ClusterConfiguration
  | [], _, _ => none
  | c :: rest, ns, name =>
    if c.ns == ns && c.name == name then some c else findConfigByKey rest ns name

/-- Lookup of a ClusterConfiguration by namespace and name. -/
def findConfig (st : ApiState) (ns name : String) : Option ClusterConfiguration :=
  findConfigByKey st.clusterConfigurations ns name

/-- Modelled from the spec: `getClusterConfiguration` (declared elsewhere
in the repository), a plain Get of the ClusterConfiguration by
namespace/name. -/
def getClusterConfiguration (st : ApiState) (ns name : String) :
    Except String ClusterConfiguration :=
  match findConfig st ns name with
  | none => .error "notFound"
  | some c => .ok c

/-- Replace the first configuration with the new object's namespace/name. -/
def replaceConfig : List ClusterConfiguration → ClusterConfiguration → List ClusterConfiguration
  | [], _ => []
  | c :: rest, new =>
    if c.ns == new.ns && c.name == new.name then new :: rest
    else c :: replaceConfig rest new

/-- Remove the first configuration with the given namespace/name. -/
def removeConfig : List ClusterConfiguration → String → String → List ClusterConfiguration
  | [], _, _ => []
  | c :: rest, ns, name =>
    if c.ns == ns && c.name == name then rest else c :: removeConfig rest ns name

/-- `r.Update` (or `r.Status().Update`) on a ClusterConfiguration. -/
def updateConfigObj (st : ApiState) (new : ClusterConfiguration) : ApiState × Option String :=
  match findConfig st new.ns new.name with
  | none => (st, some "notFound")
  | some _ => ({ st with clusterConfigurations := replaceConfig st.clusterConfigurations new }, none)

/-- `r.Delete` on a ClusterConfiguration. -/
def deleteConfigObj (st : ApiState) (c : ClusterConfiguration) : ApiState × Option String :=
  match findConfig st c.ns c.name with
  | none => (st, some "notFound")
  | some _ => ({ st with clusterConfigurations := removeConfig st.clusterConfigurations c.ns c.name }, none)

/-- The configuration's owner references after `util.RemoveOwnerRef` of
the profile's reference. -/
def ownerRefsAfterRemove (p : ClusterProfile) (cc : ClusterConfiguration) :
    List OwnerReference :=
  removeOwnerRef cc.ownerReferences (profileOwnerRef p)

/-- The configuration object after its owner-reference field was
reassigned, as the Go code mutates it in place. -/
def ccRefsRemoved (p : ClusterProfile) (cc : ClusterConfiguration) : ClusterConfiguration :=
  { cc with ownerReferences := ownerRefsAfterRemove p cc }

/-- `cleanClusterConfigurationOwnerReferences`: when the profile owns the
configuration, remove its owner reference; delete the configuration when
no owners remain, update it otherwise. -/
def cleanClusterConfigurationOwnerReferences (st : ApiState) (p : ClusterProfile)
    (cc : ClusterConfiguration) : ApiState × Option String :=
  if !(isOwnedBy cc.ownerReferences p) then (st, none)
  else
    if ownerRefsAfterRemove p cc = [] then deleteConfigObj st (ccRefsRemoved p cc)
    else updateConfigObj st (ccRefsRemoved p cc)

/-- The swap-with-last removal of the profile's entry from
`Status.ClusterProfileResources`; the boolean is Go's `toBeUpdated`. -/
def removeProfileResource (l : List ClusterProfileResource) (name : String) :
    List ClusterProfileResource × Bool :=
  match l.findIdx? (fun r => r.clusterProfileName == name) with
  | none => (l, false)
  | some i => ((l.set i (l.getLastD default)).take (l.length - 1), true)

/-- `cleanClusterConfigurationClusterProfileResources`: re-read the
current configuration (not-found is success), remove the profile's status
entry by swapping it with the last one, and update the status when an
entry was removed. -/
def cleanClusterConfigurationClusterProfileResources (st : ApiState) (p : ClusterProfile)
    (cc : ClusterConfiguration) : ApiState × Option String :=
  match getClusterConfiguration st cc.ns cc.name with
  | .error _ => (st, none)
  | .ok current =>
    match removeProfileResource current.clusterProfileResources p.name with
    | (_, false) => (st, none)
    | (newRes, true) => updateConfigObj st { current with clusterProfileResources := newRes }

/-- `cleanClusterConfiguration`: detach the owner reference, then strip
the per-profile status block. -/
def cleanClusterConfiguration (st : ApiState) (p : ClusterProfile)
    (cc : ClusterConfiguration) : ApiState × Option String :=
  match cleanClusterConfigurationOwnerReferences st p cc with
  | (st1, some e) => (st1, some e)
  | (st1, none) => cleanClusterConfigurationClusterProfileResources st1 p cc

/-- The `"%s--%s"` cluster key used by `cleanClusterConfigurations`. -/
def configKey (ns name : String) : String :=
  ns ++ "--" ++ name

/-- The loop of `cleanClusterConfigurations` over the listed
configurations: a configuration whose cluster is still a match is
skipped, every other one is detached. -/
def cleanConfigsLoop (p : ClusterProfile) (matchingKeys : List String) :
    List ClusterConfiguration → ApiState → ApiState × Option String
  | [], st => (st, none)
  | cc :: rest, st =>
    if configKey cc.ns cc.name ∈ matchingKeys then cleanConfigsLoop p matchingKeys rest st
    else
      match cleanClusterConfiguration st p cc with
      | (st1, some e) => (st1, some e)
      | (st1, none) => cleanConfigsLoop p matchingKeys rest st1

/-- `cleanClusterConfigurations`: list all configurations and detach this
profile from every one whose cluster is not in the current match set. -/
def cleanClusterConfigurations (st : ApiState) (p : ClusterProfile) : ApiState × Option String :=
  let matchingKeys := p.matchingClusterRefs.map (fun r => configKey r.ns r.name)
  cleanConfigsLoop p matchingKeys st.clusterConfigurations st

/-- `updateClusterConfigurationOwnerReferences`: no-op when the passed-in
object already lists the profile as owner; otherwise re-read the current
version and write it back with owner references computed from the
*passed-in* object's references plus the profile's reference (this is
what the Go code does: `util.EnsureOwnerRef(clusterConfiguration.
OwnerReferences, ownerRef)` uses the stale argument, not the re-read
`currentClusterConfiguration`). -/
def updateClusterConfigurationOwnerReferences (st : ApiState) (p : ClusterProfile)
    (cc : ClusterConfiguration) : ApiState × Option String :=
  if isOwnedBy cc.ownerReferences p then (st, none)
  else
    match getClusterConfiguration st cc.ns cc.name with
    | .error e => (st, some e)
    | .ok current =>
      updateConfigObj st
        { current with ownerReferences := ensureOwnerRef cc.ownerReferences (profileOwnerRef p) }

/-- The configuration with the profile's status entry stripped (the strip
is the identity when no entry is present). -/
def ccStripped (p : ClusterProfile) (cc : ClusterConfiguration) : ClusterConfiguration :=
  ClusterConfiguration.mk cc.ns cc.name cc.ownerReferences
    (removeProfileResource cc.clusterProfileResources p.name).1

/-- The configuration with the profile's owner reference removed and its
status entry stripped. -/
def ccDetached (p : ClusterProfile) (cc : ClusterConfiguration) : ClusterConfiguration :=
  ClusterConfiguration.mk cc.ns cc.name (ownerRefsAfterRemove p cc)
    (removeProfileResource cc.clusterProfileResources p.name).1

/-- The per-configuration effect of `cleanClusterConfiguration` on the
stored object, read off the source: when the profile owns the
configuration its owner reference is removed — with no owner left the
object is deleted (`none`), otherwise it is updated and the profile's
status entry is stripped; when the profile does not own it only the
status entry is stripped. -/
def detachResult (p : ClusterProfile) (cc : ClusterConfiguration) : Option ClusterConfiguration :=
  if isOwnedBy cc.ownerReferences p then
    if ownerRefsAfterRemove p cc = [] then none
    else some (ccDetached p cc)
  else
    some (ccStripped p cc)

/-! ## Delete path -/

/-- The result of a reconcile: empty result, requeue-after-delay, or an
error re-enqueued by the work queue. -/
inductive ReconcileResult
  | done
  | requeueAfter
  | errored (e : String)
deriving DecidableEq, Repr, Inhabited

/-- Which listings fail during one `reconcileDelete` run (transient API
faults): the summary listing inside `cleanClusterSummaries`, the two
`allClusterSummariesGone` listings, and the report listing. -/
structure DeleteFaults where
  listSummaries : Bool
  gone1 : Bool
  listReports : Bool
  gone2 : Bool
deriving DecidableEq, Repr, Inhabited

/-- `allClusterSummariesGone`: a listing failure yields `false`; otherwise
true iff no summary labeled with the profile is left. -/
def allClusterSummariesGone (fault : Bool) (st : ApiState) (profileName : String) : Bool :=
  match listSummariesByLabel fault st profileName with
  | .error _ => false
  | .ok l => l.length == 0

/-- `canRemoveFinalizer`: no ClusterSummary created by this profile is
left. -/
def canRemoveFinalizer (fault : Bool) (st : ApiState) (profileName : String) : Bool :=
  allClusterSummariesGone fault st profileName

/-- `controllerutil.ContainsFinalizer` guard plus
`controllerutil.RemoveFinalizer`. -/
def removeFinalizerStep (p : ClusterProfile) : ClusterProfile :=
  if clusterProfileFinalizerName ∈ p.finalizers then
    { p with finalizers := p.finalizers.filter (fun f => !(f == clusterProfileFinalizerName)) }
  else p

/-- `reconcileDelete`: clear MatchingClusterRefs, prune summaries, requeue
while labeled summaries remain, detach configurations, delete reports,
re-check the drain and only then remove the finalizer. -/
def reconcileDelete (f : DeleteFaults) (st : ApiState) (profile : ClusterProfile) :
    ReconcileResult × ClusterProfile × ApiState :=
  let p1 := { profile with matchingClusterRefs := ([] : List ObjectReference) }
  match cleanClusterSummaries f.listSummaries st p1 with
  | (st1, some e) => (.errored e, p1, st1)
  | (st1, none) =>
    if !(allClusterSummariesGone f.gone1 st1 p1.name) then (.requeueAfter, p1, st1)
    else
      match cleanClusterConfigurations st1 p1 with
      | (st2, some e) => (.errored e, p1, st2)
      | (st2, none) =>
        match cleanClusterReports f.listReports st2 p1 with
        | (st3, some e) => (.errored e, p1, st3)
        | (st3, none) =>
          if !(canRemoveFinalizer f.gone2 st3 p1.name) then (.requeueAfter, p1, st3)
          else (.done, removeFinalizerStep p1, st3)

/-! ## In-memory indices -/

/-- `configv1alpha1.PolicyRef`. -/
structure PolicyRef where
  kind : String
  ns : String
  name : String
deriving DecidableEq, Repr, Inhabited

/-- The reconciler's in-memory maps: `ClusterMap` (cluster → profiles),
`ClusterProfileMap` (profile → clusters) and `ClusterProfiles`
(profile → selector); a missing Go map entry is the empty set /
`none`. -/
structure ReconcilerMaps where
  clusterMap : PolicyRef → Finset PolicyRef
  clusterProfileMap : PolicyRef → Finset PolicyRef
  clusterProfiles : PolicyRef → Option String

/-- The `PolicyRef` built for a matching cluster in `updatesMaps`. -/
def clusterInfoOf (r : ObjectReference) : PolicyRef :=
  ⟨"Cluster", r.ns, r.name⟩

/-- The `PolicyRef` built for the profile in `updatesMaps`. -/
def profileInfoOf (p : ClusterProfile) : PolicyRef :=
  ⟨clusterProfileKind, "", p.name⟩

/-- `updatesMaps`: compute the clusters not matched anymore, insert the
profile into `ClusterMap` for every current match, erase it for every
dropped cluster, then overwrite the profile's entries in
`ClusterProfileMap` and `ClusterProfiles`. -/
def updatesMaps (m : ReconcilerMaps) (p : ClusterProfile) : ReconcilerMaps :=
  let currentClusters : Finset PolicyRef := (p.matchingClusterRefs.map clusterInfoOf).toFinset
  let profileInfo := profileInfoOf p
  let toBeRemoved := (m.clusterProfileMap profileInfo) \ currentClusters
  let cm1 : PolicyRef → Finset PolicyRef := fun k =>
    if k ∈ p.matchingClusterRefs.map clusterInfoOf then insert profileInfo (m.clusterMap k)
    else m.clusterMap k
  let cm2 : PolicyRef → Finset PolicyRef := fun k =>
    if k ∈ toBeRemoved then (cm1 k).erase profileInfo else cm1 k
  { clusterMap := cm2
    clusterProfileMap := fun k =>
      if k = profileInfo then currentClusters else m.clusterProfileMap k
    clusterProfiles := fun k =>
      if k = profileInfo then some p.spec.clusterSelector else m.clusterProfiles k }

end AddonController

namespace AddonController

/-- C4: an unparseable selector yields the empty match set and no error. -/
theorem getMatchingClusters_parse_failure (clusters : List Cluster) (sel : String)
    (hp : labelsParse sel = none) :
    getMatchingClusters (.ok clusters) sel = .ok [] := by
  simp only [getMatchingClusters, hp]
  induction clusters with
  | nil => rfl
  | cons c rest ih =>
    simp only [List.filterMap_cons, parsedMatches] at ih ⊢
    split <;> simp_all

/-- Witness for C4: the selector string `","` fails to parse and the match
set over a concrete live cluster is empty. -/
theorem getMatchingClusters_parse_failure_witness :
    labelsParse "," = none ∧
      getMatchingClusters (.ok [⟨"Cluster", "a", "c1", [("env", "prod")], 0⟩]) "," =
        .ok [] := by
  refine ⟨by decide, getMatchingClusters_parse_failure _ "," (by decide)⟩

/-- C7: with a parseable selector, a cluster's reference is in the match
set iff its labels satisfy the selector and its deletion timestamp is
zero. -/
theorem getMatchingClusters_selector_faithful (clusters : List Cluster)
    (selector : String) (sel : Selector) (c : Cluster)
    (hp : labelsParse selector = some sel)
    (hc : c ∈ clusters)
    (hinj : ∀ c' ∈ clusters, clusterRef c' = clusterRef c → c' = c) :
    clusterRef c ∈ (getMatchingClusters (.ok clusters) selector).toOption.getD [] ↔
      (selectorMatches sel c.labels = true ∧ c.deletionTimestamp = 0) := by
  simp only [getMatchingClusters, hp, Except.toOption, Option.getD, List.mem_filterMap]
  constructor
  · rintro ⟨c', hc', hmap⟩
    by_cases hdel : c'.deletionTimestamp ≠ 0
    · simp [hdel] at hmap
    · simp only [hdel, if_false] at hmap
      by_cases hm : parsedMatches (some sel) c'.labels = true
      · simp only [hm, if_true, Option.some.injEq] at hmap
        have : c' = c := hinj c' hc' hmap
        subst this
        simp only [parsedMatches] at hm
        exact ⟨hm, by omega⟩
      · simp [hm] at hmap
  · rintro ⟨hm, hdel⟩
    refine ⟨c, hc, ?_⟩
    simp [hdel, parsedMatches, hm]

/-- C1: evaluation at the failing input.  A DryRun profile whose match
set has shrunk to `a/c1` still has a ClusterReport labeled with it for
the departed cluster `a/c2`; `updateClusterReports` succeeds yet leaves
that stale report in place (contradicting both the claim and the
function's own doc comment, which promises that in DryRun mode reports
for clusters not matching anymore are deleted). -/
theorem updateClusterReports_keeps_stale_dryrun_report :
    (updateClusterReports false
      ⟨[], [⟨"a", "p1--c2", [(clusterProfileLabelName, "p1")], "a", "c2"⟩], []⟩
      ⟨"p1", "ClusterProfile", "config.projectsveltos.io/v1alpha1", "uid1", [],
        ⟨"env=prod", SyncMode.dryRun, 0⟩, [⟨"Cluster", "a", "c1"⟩], []⟩).2 = none ∧
    ClusterReport.mk "a" "p1--c2" [(clusterProfileLabelName, "p1")] "a" "c2" ∈
      (updateClusterReports false
        ⟨[], [⟨"a", "p1--c2", [(clusterProfileLabelName, "p1")], "a", "c2"⟩], []⟩
        ⟨"p1", "ClusterProfile", "config.projectsveltos.io/v1alpha1", "uid1", [],
          ⟨"env=prod", SyncMode.dryRun, 0⟩, [⟨"Cluster", "a", "c1"⟩], []⟩).1.clusterReports := by
  decide

/-! ### Lemmas about summary lookup and replacement -/

theorem findByKey_spec (l : List ClusterSummary) (ns name : String) (s : ClusterSummary)
    (h : findByKey l ns name = some s) :
    s.ns = ns ∧ s.name = name ∧ s ∈ l := by
  induction l with
  | nil => simp [findByKey] at h
  | cons t rest ih =>
    simp only [findByKey] at h
    by_cases hk : (t.ns == ns && t.name == name) = true
    · simp only [hk, if_true, Option.some_inj] at h
      subst h
      simp only [Bool.and_eq_true, beq_iff_eq] at hk
      exact ⟨hk.1, hk.2, List.mem_cons_self _ _⟩
    · simp only [hk, if_false] at h
      obtain ⟨h1, h2, h3⟩ := ih h
      exact ⟨h1, h2, List.mem_cons_of_mem _ h3⟩

theorem findByKey_replaceSummary_ne (l : List ClusterSummary) (new : ClusterSummary)
    (ns name : String) (h : ¬(new.ns = ns ∧ new.name = name)) :
    findByKey (replaceSummary l new) ns name = findByKey l ns name := by
  induction l with
  | nil => rfl
  | cons s rest ih =>
    simp only [replaceSummary]
    by_cases hk : (s.ns == new.ns && s.name == new.name) = true
    · simp only [hk, if_true, findByKey]
      simp only [Bool.and_eq_true, beq_iff_eq] at hk
      have hnew : ¬((new.ns == ns && new.name == name) = true) := by
        simp only [Bool.and_eq_true, beq_iff_eq]; exact h
      have hs : ¬((s.ns == ns && s.name == name) = true) := by
        simp only [Bool.and_eq_true, beq_iff_eq, hk.1, hk.2]; exact h
      have h2 : ¬(s.ns = ns ∧ s.name = name) := by
        rw [hk.1, hk.2]; exact h
      simp only [Bool.and_eq_true, beq_iff_eq]
      rw [if_neg h, if_neg h2]
    · simp only [hk, if_false, findByKey]
      by_cases hq : (s.ns == ns && s.name == name) = true
      · simp [hq]
      · simp [hq, ih]

theorem findByKey_replaceSummary_found (l : List ClusterSummary) (new s : ClusterSummary)
    (h : findByKey l new.ns new.name = some s) :
    findByKey (replaceSummary l new) new.ns new.name = some new := by
  induction l with
  | nil => simp [findByKey] at h
  | cons t rest ih =>
    simp only [replaceSummary, findByKey] at h ⊢
    by_cases hk : (t.ns == new.ns && t.name == new.name) = true
    · simp [hk, findByKey]
    · simp only [hk, if_false] at h ⊢
      simp only [findByKey, hk, if_false]
      exact ih h

theorem replaceSummary_self (l : List ClusterSummary) (cur : ClusterSummary)
    (h : findByKey l cur.ns cur.name = some cur) :
    replaceSummary l cur = l := by
  induction l with
  | nil => rfl
  | cons t rest ih =>
    simp only [findByKey] at h
    simp only [replaceSummary]
    by_cases hk : (t.ns == cur.ns && t.name == cur.name) = true
    · simp only [hk, if_true, Option.some_inj] at h
      simp [hk, h]
    · simp only [hk, if_false] at h
      simp [hk, ih h]

theorem findByKey_self_of_nodup (l : List ClusterSummary) (s : ClusterSummary)
    (hs : s ∈ l) (hnd : (l.map fun t => (t.ns, t.name)).Nodup) :
    findByKey l s.ns s.name = some s := by
  induction l with
  | nil => simp at hs
  | cons t rest ih =>
    simp only [List.map_cons, List.nodup_cons] at hnd
    simp only [findByKey]
    rcases List.mem_cons.mp hs with h | h
    · subst h
      simp
    · have hne : ¬((t.ns == s.ns && t.name == s.name) = true) := by
        intro hc
        simp only [Bool.and_eq_true, beq_iff_eq] at hc
        exact hnd.1 (by
          rw [show (t.ns, t.name) = (s.ns, s.name) by rw [hc.1, hc.2]]
          exact List.mem_map_of_mem _ h)
      simp only [hne, if_false]
      exact ih h hnd.2

@[simp] theorem alignSummary_ns (p : ClusterProfile) (s : ClusterSummary) :
    (alignSummary p s).ns = s.ns := rfl

@[simp] theorem alignSummary_name (p : ClusterProfile) (s : ClusterSummary) :
    (alignSummary p s).name = s.name := rfl

@[simp] theorem findSummary_mk (summaries : List ClusterSummary)
    (reports : List ClusterReport) (configs : List ClusterConfiguration)
    (ns name : String) :
    findSummary ⟨summaries, reports, configs⟩ ns name = findByKey summaries ns name := rfl

theorem updateClusterSummarySyncMode_found (st : ApiState) (p : ClusterProfile)
    (cs : ClusterSummary) (hfind : findSummary st cs.ns cs.name = some cs) :
    updateClusterSummarySyncMode st p cs =
      ({ st with clusterSummaries := replaceSummary st.clusterSummaries (alignSummary p cs) },
        none) := by
  have h2 : findSummary st (alignSummary p cs).ns (alignSummary p cs).name = some cs := by
    simpa using hfind
  simp only [updateClusterSummarySyncMode, hfind, updateSummaryObj, h2]

theorem cleanSummariesLoop_pointwise (p : ClusterProfile) (matching : List String)
    (items : List ClusterSummary) :
    ∀ st : ApiState,
    (∀ cs ∈ items, findSummary st cs.ns cs.name = some cs) →
    ((items.map fun s => (s.ns, s.name)).Nodup) →
    (∀ cs ∈ items, isOwnedBy cs.ownerReferences p = true →
        clusterInfoKey cs.clusterNamespace cs.clusterName ∈ matching) →
    ∃ st', cleanSummariesLoop p matching items st = (st', none) ∧
      ∀ ns name, findSummary st' ns name =
        (findSummary st ns name).map (fun s =>
          if s ∈ items ∧ isOwnedBy s.ownerReferences p = true then alignSummary p s else s) := by
  induction items with
  | nil =>
    intro st _ _ _
    refine ⟨st, rfl, fun ns name => ?_⟩
    cases findSummary st ns name <;> simp
  | cons cs rest ih =>
    intro st hsub hnd hmatch
    have hnd2 := hnd
    rw [List.map_cons, List.nodup_cons] at hnd2
    have hkeyout : (cs.ns, cs.name) ∉ rest.map fun s => (s.ns, s.name) := hnd2.1
    have hndr := hnd2.2
    by_cases howned : isOwnedBy cs.ownerReferences p = true
    · have hkey := hmatch cs (List.mem_cons_self _ _) howned
      have hfind : findSummary st cs.ns cs.name = some cs := hsub cs (List.mem_cons_self _ _)
      have hsync := updateClusterSummarySyncMode_found st p cs hfind
      have hstep : cleanSummariesLoop p matching (cs :: rest) st =
          cleanSummariesLoop p matching rest
            { st with clusterSummaries := replaceSummary st.clusterSummaries (alignSummary p cs) } := by
        simp only [cleanSummariesLoop, howned, if_true, if_pos hkey, hsync]
      obtain ⟨st', heq, hpt⟩ := ih
        { st with clusterSummaries := replaceSummary st.clusterSummaries (alignSummary p cs) }
        (by
          intro x hx
          have hne : ¬((alignSummary p cs).ns = x.ns ∧ (alignSummary p cs).name = x.name) := by
            simp only [alignSummary_ns, alignSummary_name]
            rintro ⟨h1, h2⟩
            exact hkeyout (by
              rw [show (cs.ns, cs.name) = (x.ns, x.name) by rw [h1, h2]]
              exact List.mem_map_of_mem _ hx)
          show findByKey (replaceSummary st.clusterSummaries (alignSummary p cs)) x.ns x.name = some x
          rw [findByKey_replaceSummary_ne _ _ _ _ hne]
          exact hsub x (List.mem_cons_of_mem _ hx))
        hndr
        (fun x hx => hmatch x (List.mem_cons_of_mem _ hx))
      refine ⟨st', by rw [hstep, heq], fun ns name => ?_⟩
      rw [hpt ns name]
      by_cases hcs : cs.ns = ns ∧ cs.name = name
      · -- the looked-up key is cs's key
        obtain ⟨h1, h2⟩ := hcs
        subst h1; subst h2
        have hrep : findByKey (replaceSummary st.clusterSummaries (alignSummary p cs))
            cs.ns cs.name = some (alignSummary p cs) := by
          have := findByKey_replaceSummary_found st.clusterSummaries (alignSummary p cs) cs
            (by simpa using hfind)
          simpa using this
        have hl : findSummary
            { st with clusterSummaries := replaceSummary st.clusterSummaries (alignSummary p cs) }
            cs.ns cs.name = some (alignSummary p cs) := hrep
        rw [hl, hfind]
        have halignout : alignSummary p cs ∉ rest := by
          intro hmem
          exact hkeyout (by
            have := List.mem_map_of_mem (fun s => (s.ns, s.name)) hmem
            simpa using this)
        simp only [Option.map_some']
        rw [if_neg (by rintro ⟨hmem, _⟩; exact halignout hmem),
          if_pos ⟨List.mem_cons_self _ _, howned⟩]
      · -- a different key: the replacement is invisible
        have hl : findSummary
            { st with clusterSummaries := replaceSummary st.clusterSummaries (alignSummary p cs) }
            ns name = findSummary st ns name := by
          show findByKey (replaceSummary st.clusterSummaries (alignSummary p cs)) ns name = _
          rw [findByKey_replaceSummary_ne]
          · rfl
          · simpa using hcs
        rw [hl]
        cases hfind2 : findSummary st ns name with
        | none => rfl
        | some s =>
          have hspec := findByKey_spec st.clusterSummaries ns name s hfind2
          have hsne : s ≠ cs := by
            intro h; rw [h] at hspec; exact hcs ⟨hspec.1, hspec.2.1⟩
          simp only [Option.map_some']
          by_cases hmem : s ∈ rest
          · by_cases ho : isOwnedBy s.ownerReferences p = true
            · rw [if_pos ⟨hmem, ho⟩, if_pos ⟨List.mem_cons_of_mem _ hmem, ho⟩]
            · rw [if_neg (by rintro ⟨_, hc⟩; exact ho hc),
                if_neg (by rintro ⟨_, hc⟩; exact ho hc)]
          · rw [if_neg (by rintro ⟨hc, _⟩; exact hmem hc),
              if_neg (by rintro ⟨hc, _⟩; exact (List.mem_cons.mp hc).elim (fun h => hsne h) hmem)]
    · have hstep : cleanSummariesLoop p matching (cs :: rest) st =
          cleanSummariesLoop p matching rest st := by
        simp only [cleanSummariesLoop]
        rw [if_neg howned]
      obtain ⟨st', heq, hpt⟩ := ih st
        (fun x hx => hsub x (List.mem_cons_of_mem _ hx))
        hndr
        (fun x hx => hmatch x (List.mem_cons_of_mem _ hx))
      refine ⟨st', by rw [hstep, heq], fun ns name => ?_⟩
      rw [hpt ns name]
      cases hfind2 : findSummary st ns name with
      | none => rfl
      | some s =>
        simp only [Option.map_some']
        by_cases hsc : s = cs
        · subst hsc
          rw [if_neg (by rintro ⟨_, hc⟩; exact howned hc),
            if_neg (by rintro ⟨_, hc⟩; exact howned hc)]
        · by_cases hmem : s ∈ rest
          · by_cases ho : isOwnedBy s.ownerReferences p = true
            · rw [if_pos ⟨hmem, ho⟩, if_pos ⟨List.mem_cons_of_mem _ hmem, ho⟩]
            · rw [if_neg (by rintro ⟨_, hc⟩; exact ho hc),
                if_neg (by rintro ⟨_, hc⟩; exact ho hc)]
          · rw [if_neg (by rintro ⟨hc, _⟩; exact hmem hc),
              if_neg (by rintro ⟨hc, _⟩; exact (List.mem_cons.mp hc).elim (fun h => hsc h) hmem)]

/-- C5 (amended): when every owned, labeled summary's cluster is still in
the match set, `cleanClusterSummaries` succeeds and aligns exactly the
owned retained summaries' SyncMode with the profile's, leaving every other
summary untouched.  (When some owned summary is not a match anymore the
step deletes it and then fails; see the counterexample.) -/
theorem cleanClusterSummaries_aligns_retained (st : ApiState) (p : ClusterProfile)
    (hnd : (st.clusterSummaries.map fun s => (s.ns, s.name)).Nodup)
    (hall : ∀ s ∈ st.clusterSummaries,
        hasLabel s.labels clusterProfileLabelName p.name = true →
        isOwnedBy s.ownerReferences p = true →
        clusterInfoKey s.clusterNamespace s.clusterName ∈
          p.matchingClusterRefs.map (fun r => clusterInfoKey r.ns r.name)) :
    ∃ st', cleanClusterSummaries false st p = (st', none) ∧
      ∀ ns name, findSummary st' ns name =
        (findSummary st ns name).map (fun s =>
          if hasLabel s.labels clusterProfileLabelName p.name = true ∧
              isOwnedBy s.ownerReferences p = true
          then alignSummary p s else s) := by
  obtain ⟨st', heq, hpt⟩ := cleanSummariesLoop_pointwise p
    (p.matchingClusterRefs.map (fun r => clusterInfoKey r.ns r.name))
    (st.clusterSummaries.filter (fun s => hasLabel s.labels clusterProfileLabelName p.name))
    st
    (by
      intro cs hcs
      exact findByKey_self_of_nodup st.clusterSummaries cs (List.mem_of_mem_filter hcs) hnd)
    ((hnd.sublist (List.Sublist.map _ (List.filter_sublist _))))
    (by
      intro cs hcs howned
      have hmem := List.mem_of_mem_filter hcs
      have hlab : hasLabel cs.labels clusterProfileLabelName p.name = true := by
        have := List.of_mem_filter hcs
        simpa using this
      exact hall cs hmem hlab howned)
  refine ⟨st', heq, fun ns name => ?_⟩
  rw [hpt ns name]
  cases hfind : findSummary st ns name with
  | none => rfl
  | some s =>
    have hspec := findByKey_spec st.clusterSummaries ns name s hfind
    simp only [Option.map_some']
    by_cases hlab : hasLabel s.labels clusterProfileLabelName p.name = true
    · have hmemf : s ∈ st.clusterSummaries.filter
          (fun t => hasLabel t.labels clusterProfileLabelName p.name) :=
        List.mem_filter.mpr ⟨hspec.2.2, hlab⟩
      by_cases ho : isOwnedBy s.ownerReferences p = true
      · rw [if_pos ⟨hmemf, ho⟩, if_pos ⟨hlab, ho⟩]
      · rw [if_neg (by rintro ⟨_, hc⟩; exact ho hc),
          if_neg (by rintro ⟨_, hc⟩; exact ho hc)]
    · have hmemf : s ∉ st.clusterSummaries.filter
          (fun t => hasLabel t.labels clusterProfileLabelName p.name) := by
        intro hc
        exact hlab (by simpa using List.of_mem_filter hc)
      rw [if_neg (by rintro ⟨hc, _⟩; exact hmemf hc),
        if_neg (by rintro ⟨hc, _⟩; exact hlab hc)]

/-- Witness for the amended C5: a singleton state whose one summary is
owned, labeled and still matching. -/
theorem cleanClusterSummaries_aligns_retained_witness :
    ∃ st', cleanClusterSummaries false
      ⟨[⟨"a", "p1--c1", [(clusterProfileLabelName, "p1")], [],
          [⟨"ClusterProfile", "p1", "config.projectsveltos.io/v1alpha1", "uid1"⟩],
          "a", "c1", ⟨"env=prod", SyncMode.oneTime, 0⟩⟩], [], []⟩
      ⟨"p1", "ClusterProfile", "config.projectsveltos.io/v1alpha1", "uid1", [],
        ⟨"env=prod", SyncMode.continuous, 0⟩, [⟨"Cluster", "a", "c1"⟩], []⟩ = (st', none) ∧
      ∀ ns name, findSummary st' ns name =
        (findSummary ⟨[⟨"a", "p1--c1", [(clusterProfileLabelName, "p1")], [],
            [⟨"ClusterProfile", "p1", "config.projectsveltos.io/v1alpha1", "uid1"⟩],
            "a", "c1", ⟨"env=prod", SyncMode.oneTime, 0⟩⟩], [], []⟩ ns name).map (fun s =>
          if hasLabel s.labels clusterProfileLabelName "p1" = true ∧
              isOwnedBy s.ownerReferences
                ⟨"p1", "ClusterProfile", "config.projectsveltos.io/v1alpha1", "uid1", [],
                  ⟨"env=prod", SyncMode.continuous, 0⟩, [⟨"Cluster", "a", "c1"⟩], []⟩ = true
          then alignSummary
            ⟨"p1", "ClusterProfile", "config.projectsveltos.io/v1alpha1", "uid1", [],
              ⟨"env=prod", SyncMode.continuous, 0⟩, [⟨"Cluster", "a", "c1"⟩], []⟩ s else s) :=
  cleanClusterSummaries_aligns_retained _ _ (by decide) (by decide)

/-- C5: evaluation at the failing input.  A profile whose match set is
empty still has one owned, labeled summary; `cleanClusterSummaries`
deletes it and then fails (not-found on the sync-mode re-fetch of the
just-deleted summary), so the pruning step does not succeed even though
every non-matching summary was deleted. -/
theorem cleanClusterSummaries_fails_after_delete :
    (cleanClusterSummaries false
      ⟨[⟨"a", "p1--c2", [(clusterProfileLabelName, "p1")], [],
          [⟨"ClusterProfile", "p1", "config.projectsveltos.io/v1alpha1", "uid1"⟩],
          "a", "c2", ⟨"env=prod", SyncMode.continuous, 0⟩⟩], [], []⟩
      ⟨"p1", "ClusterProfile", "config.projectsveltos.io/v1alpha1", "uid1", [],
        ⟨"env=prod", SyncMode.continuous, 0⟩, [], []⟩).2 = some "notFound" ∧
    (cleanClusterSummaries false
      ⟨[⟨"a", "p1--c2", [(clusterProfileLabelName, "p1")], [],
          [⟨"ClusterProfile", "p1", "config.projectsveltos.io/v1alpha1", "uid1"⟩],
          "a", "c2", ⟨"env=prod", SyncMode.continuous, 0⟩⟩], [], []⟩
      ⟨"p1", "ClusterProfile", "config.projectsveltos.io/v1alpha1", "uid1", [],
        ⟨"env=prod", SyncMode.continuous, 0⟩, [], []⟩).1.clusterSummaries = [] := by
  decide

/-- Witness for C7: a two-cluster listing where exactly the live
`env=prod` cluster matches. -/
theorem getMatchingClusters_selector_faithful_witness :
    clusterRef ⟨"Cluster", "a", "c1", [("env", "prod")], 0⟩ ∈
      (getMatchingClusters
        (.ok [⟨"Cluster", "a", "c1", [("env", "prod")], 0⟩,
              ⟨"Cluster", "a", "c2", [("env", "dev")], 0⟩]) "env=prod").toOption.getD [] ↔
      (selectorMatches ⟨[("env", "prod")]⟩ [("env", "prod")] = true ∧ (0 : Nat) = 0) :=
  getMatchingClusters_selector_faithful _ "env=prod" ⟨[("env", "prod")]⟩ _
    (by decide) (by simp) (by decide)

/-! ### Frame lemmas: pruning summaries touches neither configurations
nor reports -/

theorem deleteClusterSummary_frame (st : ApiState) (cs : ClusterSummary) :
    (deleteClusterSummary st cs).1.clusterReports = st.clusterReports ∧
    (deleteClusterSummary st cs).1.clusterConfigurations = st.clusterConfigurations := by
  unfold deleteClusterSummary
  cases findSummary st cs.ns cs.name <;> exact ⟨rfl, rfl⟩

theorem updateSummaryObj_frame (st : ApiState) (new : ClusterSummary) :
    (updateSummaryObj st new).1.clusterReports = st.clusterReports ∧
    (updateSummaryObj st new).1.clusterConfigurations = st.clusterConfigurations := by
  unfold updateSummaryObj
  cases findSummary st new.ns new.name <;> exact ⟨rfl, rfl⟩

theorem updateClusterSummarySyncMode_frame (st : ApiState) (p : ClusterProfile)
    (cs : ClusterSummary) :
    (updateClusterSummarySyncMode st p cs).1.clusterReports = st.clusterReports ∧
    (updateClusterSummarySyncMode st p cs).1.clusterConfigurations = st.clusterConfigurations := by
  unfold updateClusterSummarySyncMode
  cases findSummary st cs.ns cs.name with
  | none => exact ⟨rfl, rfl⟩
  | some current => exact updateSummaryObj_frame st _

theorem cleanSummariesLoop_cons_notowned (p : ClusterProfile) (matching : List String)
    (cs : ClusterSummary) (rest : List ClusterSummary) (st : ApiState)
    (howned : ¬(isOwnedBy cs.ownerReferences p = true)) :
    cleanSummariesLoop p matching (cs :: rest) st = cleanSummariesLoop p matching rest st := by
  simp only [cleanSummariesLoop]
  rw [if_neg howned]

theorem cleanSummariesLoop_cons_owned_matching (p : ClusterProfile) (matching : List String)
    (cs : ClusterSummary) (rest : List ClusterSummary) (st st2 : ApiState) (r : Option String)
    (howned : isOwnedBy cs.ownerReferences p = true)
    (hin : clusterInfoKey cs.clusterNamespace cs.clusterName ∈ matching)
    (h2 : updateClusterSummarySyncMode st p cs = (st2, r)) :
    cleanSummariesLoop p matching (cs :: rest) st =
      match r with
      | some e => (st2, some e)
      | none => cleanSummariesLoop p matching rest st2 := by
  cases r <;> simp only [cleanSummariesLoop, howned, if_true, if_pos hin, h2]

theorem cleanSummariesLoop_cons_owned_notmatching (p : ClusterProfile) (matching : List String)
    (cs : ClusterSummary) (rest : List ClusterSummary) (st st1 : ApiState) (r : Option String)
    (howned : isOwnedBy cs.ownerReferences p = true)
    (hnotin : ¬(clusterInfoKey cs.clusterNamespace cs.clusterName ∈ matching))
    (h1 : deleteClusterSummary st cs = (st1, r)) :
    cleanSummariesLoop p matching (cs :: rest) st =
      match r with
      | some e => (st1, some e)
      | none =>
        match updateClusterSummarySyncMode st1 p cs with
        | (st2, some e) => (st2, some e)
        | (st2, none) => cleanSummariesLoop p matching rest st2 := by
  cases r <;> simp only [cleanSummariesLoop, howned, if_true, if_neg hnotin, h1]

theorem cleanSummariesLoop_frame (p : ClusterProfile) (matching : List String) :
    ∀ (items : List ClusterSummary) (st : ApiState),
      (cleanSummariesLoop p matching items st).1.clusterReports = st.clusterReports ∧
      (cleanSummariesLoop p matching items st).1.clusterConfigurations =
        st.clusterConfigurations := by
  intro items
  induction items with
  | nil => intro st; exact ⟨rfl, rfl⟩
  | cons cs rest ih =>
    intro st
    by_cases howned : isOwnedBy cs.ownerReferences p = true
    · by_cases hin : clusterInfoKey cs.clusterNamespace cs.clusterName ∈ matching
      · rcases h2 : updateClusterSummarySyncMode st p cs with ⟨st2, e2⟩
        have hf2 := updateClusterSummarySyncMode_frame st p cs
        rw [h2] at hf2
        rw [cleanSummariesLoop_cons_owned_matching p matching cs rest st st2 e2 howned hin h2]
        cases e2 with
        | none => exact ⟨(ih st2).1.trans hf2.1, (ih st2).2.trans hf2.2⟩
        | some e => exact ⟨hf2.1, hf2.2⟩
      · rcases h1 : deleteClusterSummary st cs with ⟨st1, e1⟩
        have hf1 := deleteClusterSummary_frame st cs
        rw [h1] at hf1
        rw [cleanSummariesLoop_cons_owned_notmatching p matching cs rest st st1 e1 howned hin h1]
        cases e1 with
        | some e => exact ⟨hf1.1, hf1.2⟩
        | none =>
          rcases h2 : updateClusterSummarySyncMode st1 p cs with ⟨st2, e2⟩
          have hf2 := updateClusterSummarySyncMode_frame st1 p cs
          rw [h2] at hf2
          simp only [h2]
          cases e2 with
          | none =>
            exact ⟨((ih st2).1.trans hf2.1).trans hf1.1, ((ih st2).2.trans hf2.2).trans hf1.2⟩
          | some e => exact ⟨hf2.1.trans hf1.1, hf2.2.trans hf1.2⟩
    · rw [cleanSummariesLoop_cons_notowned p matching cs rest st howned]
      exact ih st

theorem cleanClusterSummaries_frame (fault : Bool) (st : ApiState) (p : ClusterProfile) :
    (cleanClusterSummaries fault st p).1.clusterReports = st.clusterReports ∧
    (cleanClusterSummaries fault st p).1.clusterConfigurations = st.clusterConfigurations := by
  cases fault with
  | true => exact ⟨rfl, rfl⟩
  | false =>
    exact cleanSummariesLoop_frame p
      (p.matchingClusterRefs.map (fun r => clusterInfoKey r.ns r.name))
      (st.clusterSummaries.filter (fun s => hasLabel s.labels clusterProfileLabelName p.name)) st

/-- C2: (a) if, after the summary pruning succeeds, summaries labeled with
the profile are still listed (the gone-check is false), `reconcileDelete`
returns the requeue-after result with the configurations and reports of
the input state untouched and the finalizers unchanged; (b) whenever the
finalizer set of the returned profile differs from the input's, the run
completed and the drain check held on the state immediately preceding the
removal. -/
theorem reconcileDelete_gates_on_drain (f : DeleteFaults) (st : ApiState) (p : ClusterProfile) :
    (∀ st1 : ApiState,
      cleanClusterSummaries f.listSummaries st { p with matchingClusterRefs := [] } =
        (st1, none) →
      allClusterSummariesGone f.gone1 st1 p.name = false →
      reconcileDelete f st p = (.requeueAfter, { p with matchingClusterRefs := [] }, st1) ∧
        st1.clusterConfigurations = st.clusterConfigurations ∧
        st1.clusterReports = st.clusterReports) ∧
    ((reconcileDelete f st p).2.1.finalizers ≠ p.finalizers →
      (reconcileDelete f st p).1 = ReconcileResult.done ∧
      canRemoveFinalizer f.gone2 (reconcileDelete f st p).2.2 p.name = true) := by
  constructor
  · intro st1 hclean hgone
    have hframe := cleanClusterSummaries_frame f.listSummaries st
      { p with matchingClusterRefs := [] }
    rw [hclean] at hframe
    refine ⟨?_, hframe.2, hframe.1⟩
    simp only [reconcileDelete, hclean, hgone, Bool.not_false, if_true]
  · intro hne
    rcases hclean : cleanClusterSummaries f.listSummaries st
      { p with matchingClusterRefs := [] } with ⟨st1, e1⟩
    cases e1 with
    | some e =>
      exact absurd (by simp [reconcileDelete, hclean]) hne
    | none =>
      cases hg1 : allClusterSummariesGone f.gone1 st1 p.name with
      | false =>
        exact absurd (by simp [reconcileDelete, hclean, hg1]) hne
      | true =>
        rcases hconf : cleanClusterConfigurations st1 { p with matchingClusterRefs := [] }
          with ⟨st2, e2⟩
        cases e2 with
        | some e =>
          exact absurd (by simp [reconcileDelete, hclean, hg1, hconf]) hne
        | none =>
          rcases hrep : cleanClusterReports f.listReports st2
            { p with matchingClusterRefs := [] } with ⟨st3, e3⟩
          cases e3 with
          | some e =>
            exact absurd (by simp [reconcileDelete, hclean, hg1, hconf, hrep]) hne
          | none =>
            cases hg2 : canRemoveFinalizer f.gone2 st3 p.name with
            | false =>
              exact absurd (by simp [reconcileDelete, hclean, hg1, hconf, hrep, hg2]) hne
            | true =>
              constructor
              · simp [reconcileDelete, hclean, hg1, hconf, hrep, hg2]
              · have hst : (reconcileDelete f st p).2.2 = st3 := by
                  simp [reconcileDelete, hclean, hg1, hconf, hrep, hg2]
                rw [hst]
                exact hg2

/-- Witness for C2: (a) a state whose one labeled summary is not owned by
the deleted profile, so pruning succeeds but the drain check fails and the
run requeues; (b) an empty state where the drain check holds and the
finalizer is removed. -/
theorem reconcileDelete_gates_on_drain_witness :
    (reconcileDelete ⟨false, false, false, false⟩
        ⟨[⟨"a", "px--c1", [(clusterProfileLabelName, "px")], [], [], "a", "c1",
            ⟨"", SyncMode.continuous, 0⟩⟩], [], []⟩
        ⟨"px", "ClusterProfile", "config.projectsveltos.io/v1alpha1", "u", [],
          ⟨"", SyncMode.continuous, 0⟩, [⟨"Cluster", "a", "c1"⟩],
          [clusterProfileFinalizerName]⟩ =
      (.requeueAfter,
        { (⟨"px", "ClusterProfile", "config.projectsveltos.io/v1alpha1", "u", [],
            ⟨"", SyncMode.continuous, 0⟩, [⟨"Cluster", "a", "c1"⟩],
            [clusterProfileFinalizerName]⟩ : ClusterProfile) with
          matchingClusterRefs := [] },
        ⟨[⟨"a", "px--c1", [(clusterProfileLabelName, "px")], [], [], "a", "c1",
            ⟨"", SyncMode.continuous, 0⟩⟩], [], []⟩) ∧
      ([] : List ClusterConfiguration) = [] ∧ ([] : List ClusterReport) = []) ∧
    ((reconcileDelete ⟨false, false, false, false⟩ ⟨[], [], []⟩
        ⟨"pb", "ClusterProfile", "config.projectsveltos.io/v1alpha1", "u", [],
          ⟨"", SyncMode.continuous, 0⟩, [], [clusterProfileFinalizerName]⟩).1 =
        ReconcileResult.done ∧
      canRemoveFinalizer false
        (reconcileDelete ⟨false, false, false, false⟩ ⟨[], [], []⟩
          ⟨"pb", "ClusterProfile", "config.projectsveltos.io/v1alpha1", "u", [],
            ⟨"", SyncMode.continuous, 0⟩, [], [clusterProfileFinalizerName]⟩).2.2 "pb" = true) :=
  ⟨(reconcileDelete_gates_on_drain _ _ _).1 _ (by decide) (by decide),
    (reconcileDelete_gates_on_drain _ _ _).2 (by decide)⟩

/-- C10: a failed summary listing makes `allClusterSummariesGone` return
`false` instead of an error, and on the delete path a failing gone-check
after a successful pruning yields the requeue-after result with the
profile's finalizers untouched. -/
theorem allClusterSummariesGone_list_failure :
    (∀ (st : ApiState) (nm : String), allClusterSummariesGone true st nm = false) ∧
    (∀ (f : DeleteFaults) (st st1 : ApiState) (p : ClusterProfile),
      f.gone1 = true →
      cleanClusterSummaries f.listSummaries st { p with matchingClusterRefs := [] } =
        (st1, none) →
      reconcileDelete f st p = (.requeueAfter, { p with matchingClusterRefs := [] }, st1) ∧
        ({ p with matchingClusterRefs := ([] : List ObjectReference) }).finalizers =
          p.finalizers) := by
  constructor
  · intro st nm; rfl
  · intro f st st1 p hg hclean
    have hfalse : allClusterSummariesGone f.gone1 st1 p.name = false := by rw [hg]; rfl
    refine ⟨?_, rfl⟩
    simp only [reconcileDelete, hclean, hfalse, Bool.not_false, if_true]

/-- Witness for C10: the gone-listing fails while the state is empty; the
run requeues and keeps the finalizer. -/
theorem allClusterSummariesGone_list_failure_witness :
    (reconcileDelete ⟨false, true, false, false⟩ ⟨[], [], []⟩
        ⟨"p1", "ClusterProfile", "config.projectsveltos.io/v1alpha1", "u", [],
          ⟨"", SyncMode.continuous, 0⟩, [], [clusterProfileFinalizerName]⟩ =
      (.requeueAfter,
        { (⟨"p1", "ClusterProfile", "config.projectsveltos.io/v1alpha1", "u", [],
            ⟨"", SyncMode.continuous, 0⟩, [], [clusterProfileFinalizerName]⟩ :
              ClusterProfile) with matchingClusterRefs := [] },
        ⟨[], [], []⟩) ∧
      ({ (⟨"p1", "ClusterProfile", "config.projectsveltos.io/v1alpha1", "u", [],
          ⟨"", SyncMode.continuous, 0⟩, [], [clusterProfileFinalizerName]⟩ :
            ClusterProfile) with matchingClusterRefs := ([] : List ObjectReference) }).finalizers =
        [clusterProfileFinalizerName]) :=
  allClusterSummariesGone_list_failure.2 _ _ _ _ rfl (by decide)

/-- C8: under OneTime sync, `updateClusterSummary` returns without any
update, and the only other summary-spec writer on the reconcile path, the
SyncMode alignment, writes back an unchanged object for a summary whose
embedded mode is already OneTime — so the spec written at creation is
frozen. -/
theorem oneTime_freeze :
    (∀ (st : ApiState) (p : ClusterProfile) (c : ObjectReference),
      p.spec.syncMode = SyncMode.oneTime → updateClusterSummary st p c = (st, none)) ∧
    (∀ (st : ApiState) (p : ClusterProfile) (cs current : ClusterSummary),
      p.spec.syncMode = SyncMode.oneTime →
      findSummary st cs.ns cs.name = some current →
      current.clusterProfileSpec.syncMode = SyncMode.oneTime →
      updateClusterSummarySyncMode st p cs = (st, none)) := by
  constructor
  · intro st p c hmode
    simp [updateClusterSummary, isOneTimeSync, hmode]
  · intro st p cs current hmode hfind hcur
    have halign : alignSummary p current = current := by
      simp only [alignSummary, hmode, ← hcur]
    have hspec := findByKey_spec st.clusterSummaries cs.ns cs.name current hfind
    have hfind2 : findSummary st current.ns current.name = some current := by
      rw [hspec.1, hspec.2.1]; exact hfind
    have hrepl := replaceSummary_self st.clusterSummaries current hfind2
    simp only [updateClusterSummarySyncMode, hfind, halign, updateSummaryObj, hfind2, hrepl]

/-- Witness for C8: a OneTime profile and its summary created under
OneTime sync; neither operation changes the state. -/
theorem oneTime_freeze_witness :
    updateClusterSummary
      ⟨[⟨"a", "p1--c1", [(clusterProfileLabelName, "p1")], [],
          [⟨"ClusterProfile", "p1", "config.projectsveltos.io/v1alpha1", "uid1"⟩],
          "a", "c1", ⟨"env=prod", SyncMode.oneTime, 7⟩⟩], [], []⟩
      ⟨"p1", "ClusterProfile", "config.projectsveltos.io/v1alpha1", "uid1", [],
        ⟨"env=prod", SyncMode.oneTime, 9⟩, [⟨"Cluster", "a", "c1"⟩], []⟩
      ⟨"Cluster", "a", "c1"⟩ =
      (⟨[⟨"a", "p1--c1", [(clusterProfileLabelName, "p1")], [],
          [⟨"ClusterProfile", "p1", "config.projectsveltos.io/v1alpha1", "uid1"⟩],
          "a", "c1", ⟨"env=prod", SyncMode.oneTime, 7⟩⟩], [], []⟩, none) ∧
    updateClusterSummarySyncMode
      ⟨[⟨"a", "p1--c1", [(clusterProfileLabelName, "p1")], [],
          [⟨"ClusterProfile", "p1", "config.projectsveltos.io/v1alpha1", "uid1"⟩],
          "a", "c1", ⟨"env=prod", SyncMode.oneTime, 7⟩⟩], [], []⟩
      ⟨"p1", "ClusterProfile", "config.projectsveltos.io/v1alpha1", "uid1", [],
        ⟨"env=prod", SyncMode.oneTime, 9⟩, [⟨"Cluster", "a", "c1"⟩], []⟩
      ⟨"a", "p1--c1", [(clusterProfileLabelName, "p1")], [],
        [⟨"ClusterProfile", "p1", "config.projectsveltos.io/v1alpha1", "uid1"⟩],
        "a", "c1", ⟨"env=prod", SyncMode.oneTime, 7⟩⟩ =
      (⟨[⟨"a", "p1--c1", [(clusterProfileLabelName, "p1")], [],
          [⟨"ClusterProfile", "p1", "config.projectsveltos.io/v1alpha1", "uid1"⟩],
          "a", "c1", ⟨"env=prod", SyncMode.oneTime, 7⟩⟩], [], []⟩, none) :=
  ⟨oneTime_freeze.1 _ _ _ rfl,
    oneTime_freeze.2 _ _ _
      ⟨"a", "p1--c1", [(clusterProfileLabelName, "p1")], [],
        [⟨"ClusterProfile", "p1", "config.projectsveltos.io/v1alpha1", "uid1"⟩],
        "a", "c1", ⟨"env=prod", SyncMode.oneTime, 7⟩⟩
      rfl (by decide) rfl⟩

/-! ### Lemmas about configuration lookup, replacement and removal -/

theorem findConfigByKey_spec (l : List ClusterConfiguration) (ns name : String)
    (c : ClusterConfiguration) (h : findConfigByKey l ns name = some c) :
    c.ns = ns ∧ c.name = name ∧ c ∈ l := by
  induction l with
  | nil => simp [findConfigByKey] at h
  | cons t rest ih =>
    simp only [findConfigByKey] at h
    by_cases hk : (t.ns == ns && t.name == name) = true
    · simp only [hk, if_true, Option.some_inj] at h
      subst h
      simp only [Bool.and_eq_true, beq_iff_eq] at hk
      exact ⟨hk.1, hk.2, List.mem_cons_self _ _⟩
    · simp only [hk, if_false] at h
      obtain ⟨h1, h2, h3⟩ := ih h
      exact ⟨h1, h2, List.mem_cons_of_mem _ h3⟩

theorem findConfigByKey_replaceConfig_ne (l : List ClusterConfiguration)
    (new : ClusterConfiguration) (ns name : String)
    (h : ¬(new.ns = ns ∧ new.name = name)) :
    findConfigByKey (replaceConfig l new) ns name = findConfigByKey l ns name := by
  induction l with
  | nil => rfl
  | cons c rest ih =>
    simp only [replaceConfig]
    by_cases hk : (c.ns == new.ns && c.name == new.name) = true
    · simp only [hk, if_true, findConfigByKey]
      simp only [Bool.and_eq_true, beq_iff_eq] at hk
      have h2 : ¬(c.ns = ns ∧ c.name = name) := by
        rw [hk.1, hk.2]; exact h
      simp only [Bool.and_eq_true, beq_iff_eq]
      rw [if_neg h, if_neg h2]
    · simp only [hk, if_false, findConfigByKey]
      by_cases hq : (c.ns == ns && c.name == name) = true
      · simp [hq]
      · simp [hq, ih]

theorem findConfigByKey_replaceConfig_found (l : List ClusterConfiguration)
    (new c : ClusterConfiguration) (h : findConfigByKey l new.ns new.name = some c) :
    findConfigByKey (replaceConfig l new) new.ns new.name = some new := by
  induction l with
  | nil => simp [findConfigByKey] at h
  | cons t rest ih =>
    simp only [replaceConfig, findConfigByKey] at h ⊢
    by_cases hk : (t.ns == new.ns && t.name == new.name) = true
    · simp [hk, findConfigByKey]
    · simp only [hk, if_false] at h ⊢
      simp only [findConfigByKey, hk, if_false]
      exact ih h

theorem replaceConfig_self (l : List ClusterConfiguration) (cur : ClusterConfiguration)
    (h : findConfigByKey l cur.ns cur.name = some cur) :
    replaceConfig l cur = l := by
  induction l with
  | nil => rfl
  | cons t rest ih =>
    simp only [findConfigByKey] at h
    simp only [replaceConfig]
    by_cases hk : (t.ns == cur.ns && t.name == cur.name) = true
    · simp only [hk, if_true, Option.some_inj] at h
      simp [hk, h]
    · simp only [hk, if_false] at h
      simp [hk, ih h]

theorem findConfigByKey_self_of_nodup (l : List ClusterConfiguration)
    (c : ClusterConfiguration) (hc : c ∈ l)
    (hnd : (l.map fun t => (t.ns, t.name)).Nodup) :
    findConfigByKey l c.ns c.name = some c := by
  induction l with
  | nil => simp at hc
  | cons t rest ih =>
    simp only [List.map_cons, List.nodup_cons] at hnd
    simp only [findConfigByKey]
    rcases List.mem_cons.mp hc with h | h
    · subst h
      simp
    · have hne : ¬((t.ns == c.ns && t.name == c.name) = true) := by
        intro hco
        simp only [Bool.and_eq_true, beq_iff_eq] at hco
        exact hnd.1 (by
          rw [show (t.ns, t.name) = (c.ns, c.name) by rw [hco.1, hco.2]]
          exact List.mem_map_of_mem _ h)
      simp only [hne, if_false]
      exact ih h hnd.2

theorem findConfigByKey_removeConfig_ne (l : List ClusterConfiguration)
    (ns name ns' name' : String) (h : ¬(ns = ns' ∧ name = name')) :
    findConfigByKey (removeConfig l ns name) ns' name' = findConfigByKey l ns' name' := by
  induction l with
  | nil => rfl
  | cons c rest ih =>
    simp only [removeConfig]
    by_cases hk : (c.ns == ns && c.name == name) = true
    · simp only [hk, if_true]
      simp only [Bool.and_eq_true, beq_iff_eq] at hk
      have h2 : ¬((c.ns == ns' && c.name == name') = true) := by
        simp only [Bool.and_eq_true, beq_iff_eq, hk.1, hk.2]
        exact h
      simp only [findConfigByKey]
      rw [if_neg h2]
    · simp only [hk, if_false, findConfigByKey]
      by_cases hq : (c.ns == ns' && c.name == name') = true
      · simp [hq]
      · simp [hq, ih]

theorem findConfigByKey_none_of_not_mem (l : List ClusterConfiguration) (ns name : String)
    (h : (ns, name) ∉ l.map fun t => (t.ns, t.name)) :
    findConfigByKey l ns name = none := by
  induction l with
  | nil => rfl
  | cons c rest ih =>
    simp only [List.map_cons, List.mem_cons] at h
    push_neg at h
    have hk : ¬((c.ns == ns && c.name == name) = true) := by
      intro hc
      simp only [Bool.and_eq_true, beq_iff_eq] at hc
      exact h.1 (by rw [hc.1, hc.2])
    simp only [findConfigByKey, hk, if_false]
    exact ih h.2

theorem findConfigByKey_removeConfig_self (l : List ClusterConfiguration) (ns name : String)
    (hnd : (l.map fun t => (t.ns, t.name)).Nodup) :
    findConfigByKey (removeConfig l ns name) ns name = none := by
  induction l with
  | nil => rfl
  | cons c rest ih =>
    simp only [List.map_cons, List.nodup_cons] at hnd
    simp only [removeConfig]
    by_cases hk : (c.ns == ns && c.name == name) = true
    · simp only [hk, if_true]
      simp only [Bool.and_eq_true, beq_iff_eq] at hk
      apply findConfigByKey_none_of_not_mem
      rw [← hk.1, ← hk.2]
      exact hnd.1
    · simp only [hk, if_false, findConfigByKey, hk]
      exact ih hnd.2

theorem removeConfig_sublist (l : List ClusterConfiguration) (ns name : String) :
    (removeConfig l ns name).Sublist l := by
  induction l with
  | nil => exact List.Sublist.refl _
  | cons c rest ih =>
    simp only [removeConfig]
    by_cases hk : (c.ns == ns && c.name == name) = true
    · simp only [hk, if_true]
      exact List.sublist_cons_self _ _
    · simp only [hk, if_false]
      exact List.Sublist.cons₂ _ ih

theorem replaceConfig_map_key (l : List ClusterConfiguration) (new : ClusterConfiguration) :
    ((replaceConfig l new).map fun t => (t.ns, t.name)) = l.map fun t => (t.ns, t.name) := by
  induction l with
  | nil => rfl
  | cons c rest ih =>
    simp only [replaceConfig]
    by_cases hk : (c.ns == new.ns && c.name == new.name) = true
    · simp only [hk, if_true, List.map_cons]
      simp only [Bool.and_eq_true, beq_iff_eq] at hk
      rw [hk.1, hk.2]
    · rw [if_neg hk]
      simp only [List.map_cons, ih]

theorem replaceConfig_twice (l : List ClusterConfiguration) (a b : ClusterConfiguration)
    (hk : a.ns = b.ns ∧ a.name = b.name) :
    replaceConfig (replaceConfig l a) b = replaceConfig l b := by
  induction l with
  | nil => rfl
  | cons c rest ih =>
    simp only [replaceConfig]
    by_cases hc : (c.ns == a.ns && c.name == a.name) = true
    · simp only [Bool.and_eq_true, beq_iff_eq] at hc
      have h1 : (c.ns == b.ns && c.name == b.name) = true := by
        simp [hc.1, hc.2, hk.1, hk.2]
      have h2 : (a.ns == b.ns && a.name == b.name) = true := by
        simp [hk.1, hk.2]
      simp only [show (c.ns == a.ns && c.name == a.name) = true by simp [hc.1, hc.2],
        if_true, replaceConfig, h1, h2]
    · have h1 : ¬((c.ns == b.ns && c.name == b.name) = true) := by
        intro hcon
        simp only [Bool.and_eq_true, beq_iff_eq] at hcon
        exact hc (by simp [hcon.1, hcon.2, hk.1, hk.2])
      rw [if_neg hc, if_neg h1]
      simp only [replaceConfig]
      rw [if_neg h1, ih]

theorem removeProfileResource_false (l : List ClusterProfileResource) (name : String)
    (h : (removeProfileResource l name).2 = false) :
    (removeProfileResource l name).1 = l := by
  unfold removeProfileResource at h ⊢
  cases hidx : l.findIdx? (fun r => r.clusterProfileName == name) with
  | none => rfl
  | some i => rw [hidx] at h; simp at h

@[simp] theorem ccRefsRemoved_ns (p : ClusterProfile) (cc : ClusterConfiguration) :
    (ccRefsRemoved p cc).ns = cc.ns := rfl

@[simp] theorem ccRefsRemoved_name (p : ClusterProfile) (cc : ClusterConfiguration) :
    (ccRefsRemoved p cc).name = cc.name := rfl

@[simp] theorem ccRefsRemoved_res (p : ClusterProfile) (cc : ClusterConfiguration) :
    (ccRefsRemoved p cc).clusterProfileResources = cc.clusterProfileResources := rfl

@[simp] theorem ccRefsRemoved_refs (p : ClusterProfile) (cc : ClusterConfiguration) :
    (ccRefsRemoved p cc).ownerReferences = ownerRefsAfterRemove p cc := rfl

@[simp] theorem ccDetached_ns (p : ClusterProfile) (cc : ClusterConfiguration) :
    (ccDetached p cc).ns = cc.ns := rfl

@[simp] theorem ccDetached_name (p : ClusterProfile) (cc : ClusterConfiguration) :
    (ccDetached p cc).name = cc.name := rfl

@[simp] theorem ccStripped_ns (p : ClusterProfile) (cc : ClusterConfiguration) :
    (ccStripped p cc).ns = cc.ns := rfl

@[simp] theorem ccStripped_name (p : ClusterProfile) (cc : ClusterConfiguration) :
    (ccStripped p cc).name = cc.name := rfl

theorem detachResult_key (p : ClusterProfile) (cc cc2 : ClusterConfiguration)
    (h : detachResult p cc = some cc2) :
    cc2.ns = cc.ns ∧ cc2.name = cc.name := by
  simp only [detachResult] at h
  by_cases howned : isOwnedBy cc.ownerReferences p = true
  · rw [if_pos howned] at h
    by_cases hempty : ownerRefsAfterRemove p cc = []
    · rw [if_pos hempty] at h
      simp at h
    · rw [if_neg hempty, Option.some_inj] at h
      subst h
      exact ⟨rfl, rfl⟩
  · rw [if_neg howned, Option.some_inj] at h
    subst h
    exact ⟨rfl, rfl⟩

theorem cleanClusterConfiguration_spec (st : ApiState) (p : ClusterProfile)
    (cc : ClusterConfiguration)
    (hnd : (st.clusterConfigurations.map fun c => (c.ns, c.name)).Nodup)
    (hfind : findConfig st cc.ns cc.name = some cc) :
    cleanClusterConfiguration st p cc =
      ({ st with clusterConfigurations :=
          match detachResult p cc with
          | none => removeConfig st.clusterConfigurations cc.ns cc.name
          | some cc2 => replaceConfig st.clusterConfigurations cc2 }, none) := by
  have hfindK : findConfigByKey st.clusterConfigurations cc.ns cc.name = some cc := hfind
  by_cases howned : isOwnedBy cc.ownerReferences p = true
  · by_cases hempty : ownerRefsAfterRemove p cc = []
    · -- last owner departs: the configuration is deleted
      have hdetach : detachResult p cc = none := by
        simp only [detachResult]
        rw [if_pos howned, if_pos hempty]
      have howner : cleanClusterConfigurationOwnerReferences st p cc =
          ({ st with clusterConfigurations :=
              removeConfig st.clusterConfigurations cc.ns cc.name }, none) := by
        simp only [cleanClusterConfigurationOwnerReferences, howned, Bool.not_true]
        rw [if_neg (by simp), if_pos hempty]
        simp only [deleteConfigObj, findConfig, ccRefsRemoved_ns, ccRefsRemoved_name, hfindK]
      have hres : cleanClusterConfigurationClusterProfileResources
          ({ st with clusterConfigurations :=
              removeConfig st.clusterConfigurations cc.ns cc.name }) p cc =
          ({ st with clusterConfigurations :=
              removeConfig st.clusterConfigurations cc.ns cc.name }, none) := by
        have hnone : findConfigByKey (removeConfig st.clusterConfigurations cc.ns cc.name)
            cc.ns cc.name = none :=
          findConfigByKey_removeConfig_self st.clusterConfigurations cc.ns cc.name hnd
        simp only [cleanClusterConfigurationClusterProfileResources, getClusterConfiguration,
          findConfig, hnone]
      simp only [cleanClusterConfiguration, howner, hres, hdetach]
    · -- other owners remain: the configuration is updated
      rcases hrr : removeProfileResource cc.clusterProfileResources p.name with ⟨newRes, b⟩
      have hdetach : detachResult p cc = some (ccDetached p cc) := by
        simp only [detachResult]
        rw [if_pos howned, if_neg hempty]
      have howner : cleanClusterConfigurationOwnerReferences st p cc =
          ({ st with clusterConfigurations :=
              replaceConfig st.clusterConfigurations (ccRefsRemoved p cc) }, none) := by
        simp only [cleanClusterConfigurationOwnerReferences, howned, Bool.not_true]
        rw [if_neg (by simp), if_neg hempty]
        simp only [updateConfigObj, findConfig, ccRefsRemoved_ns, ccRefsRemoved_name, hfindK]
      have hfoundK : findConfigByKey
          (replaceConfig st.clusterConfigurations (ccRefsRemoved p cc)) cc.ns cc.name =
          some (ccRefsRemoved p cc) :=
        findConfigByKey_replaceConfig_found st.clusterConfigurations (ccRefsRemoved p cc) cc hfind
      cases b with
      | false =>
        have hsame : newRes = cc.clusterProfileResources := by
          have h2 : (removeProfileResource cc.clusterProfileResources p.name).2 = false := by
            rw [hrr]
          have h1 := removeProfileResource_false cc.clusterProfileResources p.name h2
          rw [hrr] at h1
          exact h1
        have hccd : ccDetached p cc = ccRefsRemoved p cc := by
          simp only [ccDetached, ccRefsRemoved, hrr, hsame]
        have hres : cleanClusterConfigurationClusterProfileResources
            ({ st with clusterConfigurations :=
                replaceConfig st.clusterConfigurations (ccRefsRemoved p cc) }) p cc =
            ({ st with clusterConfigurations :=
                replaceConfig st.clusterConfigurations (ccRefsRemoved p cc) }, none) := by
          simp only [cleanClusterConfigurationClusterProfileResources, getClusterConfiguration,
            findConfig, hfoundK, ccRefsRemoved_res, hrr]
        simp only [cleanClusterConfiguration, howner, hres, hdetach, hccd]
      | true =>
        have hres : cleanClusterConfigurationClusterProfileResources
            ({ st with clusterConfigurations :=
                replaceConfig st.clusterConfigurations (ccRefsRemoved p cc) }) p cc =
            ({ st with clusterConfigurations :=
                replaceConfig st.clusterConfigurations (ccDetached p cc) }, none) := by
          simp only [cleanClusterConfigurationClusterProfileResources, getClusterConfiguration,
            findConfig, hfoundK, ccRefsRemoved_res, hrr, updateConfigObj, ccRefsRemoved_ns,
            ccRefsRemoved_name, ccRefsRemoved_refs, ccDetached]
          rw [replaceConfig_twice st.clusterConfigurations (ccRefsRemoved p cc)
            (ClusterConfiguration.mk cc.ns cc.name (ownerRefsAfterRemove p cc) newRes)
            ⟨rfl, rfl⟩]
        simp only [cleanClusterConfiguration, howner, hres, hdetach]
  · -- profile not an owner: only the status entry is stripped
    have hb : isOwnedBy cc.ownerReferences p = false := by
      cases hx : isOwnedBy cc.ownerReferences p
      · rfl
      · exact absurd hx howned
    have howner : cleanClusterConfigurationOwnerReferences st p cc = (st, none) := by
      simp only [cleanClusterConfigurationOwnerReferences, hb, Bool.not_false]
      simp
    rcases hrr : removeProfileResource cc.clusterProfileResources p.name with ⟨newRes, b⟩
    have hdetach : detachResult p cc = some (ccStripped p cc) := by
      simp only [detachResult]
      rw [if_neg howned]
    cases b with
    | false =>
      have hsame : newRes = cc.clusterProfileResources := by
        have h2 : (removeProfileResource cc.clusterProfileResources p.name).2 = false := by
          rw [hrr]
        have h1 := removeProfileResource_false cc.clusterProfileResources p.name h2
        rw [hrr] at h1
        exact h1
      have hstrip : ccStripped p cc = cc := by
        simp only [ccStripped, hrr, hsame]
      have hres : cleanClusterConfigurationClusterProfileResources st p cc = (st, none) := by
        simp only [cleanClusterConfigurationClusterProfileResources, getClusterConfiguration,
          findConfig, hfindK, hrr]
      have hrepl : replaceConfig st.clusterConfigurations cc = st.clusterConfigurations :=
        replaceConfig_self st.clusterConfigurations cc hfind
      simp only [cleanClusterConfiguration, howner, hres, hdetach, hstrip, hrepl]
    | true =>
      have hstrip : ccStripped p cc = { cc with clusterProfileResources := newRes } := by
        simp only [ccStripped, hrr]
      have hres : cleanClusterConfigurationClusterProfileResources st p cc =
          ({ st with clusterConfigurations :=
              replaceConfig st.clusterConfigurations (ccStripped p cc) }, none) := by
        simp only [cleanClusterConfigurationClusterProfileResources, getClusterConfiguration,
          findConfig, hfindK, hrr, updateConfigObj, ccStripped_ns, ccStripped_name, hstrip]
      simp only [cleanClusterConfiguration, howner, hres, hdetach]

theorem cleanConfigsLoop_cons_skip (p : ClusterProfile) (keys : List String)
    (cc : ClusterConfiguration) (rest : List ClusterConfiguration) (st : ApiState)
    (hin : configKey cc.ns cc.name ∈ keys) :
    cleanConfigsLoop p keys (cc :: rest) st = cleanConfigsLoop p keys rest st := by
  simp only [cleanConfigsLoop]
  rw [if_pos hin]

theorem cleanConfigsLoop_cons_detach (p : ClusterProfile) (keys : List String)
    (cc : ClusterConfiguration) (rest : List ClusterConfiguration) (st st1 : ApiState)
    (r : Option String) (hnotin : ¬(configKey cc.ns cc.name ∈ keys))
    (h1 : cleanClusterConfiguration st p cc = (st1, r)) :
    cleanConfigsLoop p keys (cc :: rest) st =
      match r with
      | some e => (st1, some e)
      | none => cleanConfigsLoop p keys rest st1 := by
  cases r with
  | none =>
    simp only [cleanConfigsLoop]
    rw [if_neg hnotin]
    simp only [h1]
  | some e =>
    simp only [cleanConfigsLoop]
    rw [if_neg hnotin]
    simp only [h1]

theorem cleanConfigsLoop_pointwise (p : ClusterProfile) (keys : List String)
    (items : List ClusterConfiguration) :
    ∀ st : ApiState,
    (∀ cc ∈ items, findConfig st cc.ns cc.name = some cc) →
    ((items.map fun c => (c.ns, c.name)).Nodup) →
    ((st.clusterConfigurations.map fun c => (c.ns, c.name)).Nodup) →
    ∃ st', cleanConfigsLoop p keys items st = (st', none) ∧
      ∀ ns name, findConfig st' ns name =
        (findConfig st ns name).bind (fun cc =>
          if cc ∈ items then
            (if configKey cc.ns cc.name ∈ keys then some cc else detachResult p cc)
          else some cc) := by
  induction items with
  | nil =>
    intro st _ _ _
    refine ⟨st, rfl, fun ns name => ?_⟩
    cases findConfig st ns name <;> simp
  | cons cc rest ih =>
    intro st hsub hnd hndst
    have hnd2 := hnd
    rw [List.map_cons, List.nodup_cons] at hnd2
    have hkeyout := hnd2.1
    have hndr := hnd2.2
    have hfindcc : findConfig st cc.ns cc.name = some cc := hsub cc (List.mem_cons_self _ _)
    have hccnotr : cc ∉ rest := fun hc => hkeyout (List.mem_map_of_mem _ hc)
    by_cases hin : configKey cc.ns cc.name ∈ keys
    · -- the cluster is still a match: skipped, left untouched
      rw [cleanConfigsLoop_cons_skip p keys cc rest st hin]
      obtain ⟨st', heq, hpt⟩ := ih st
        (fun x hx => hsub x (List.mem_cons_of_mem _ hx)) hndr hndst
      refine ⟨st', heq, fun ns name => ?_⟩
      rw [hpt ns name]
      cases hfind2 : findConfig st ns name with
      | none => rfl
      | some s =>
        by_cases hsc : s = cc
        · subst hsc
          simp [hccnotr, hin, List.mem_cons]
        · by_cases hmem : s ∈ rest
          · simp [hmem, List.mem_cons, hsc]
          · simp [hmem, List.mem_cons, hsc]
    · -- not a match anymore: detached
      have hstep := cleanClusterConfiguration_spec st p cc hndst hfindcc
      cases hd : detachResult p cc with
      | none =>
        have hstep2 : cleanClusterConfiguration st p cc =
            ({ st with clusterConfigurations :=
                removeConfig st.clusterConfigurations cc.ns cc.name }, none) := by
          rw [hstep, hd]
        rw [cleanConfigsLoop_cons_detach p keys cc rest st _ none hin hstep2]
        obtain ⟨st', heq, hpt⟩ := ih
          ({ st with clusterConfigurations :=
              removeConfig st.clusterConfigurations cc.ns cc.name })
          (by
            intro x hx
            have hne : ¬(cc.ns = x.ns ∧ cc.name = x.name) := by
              rintro ⟨h1, h2⟩
              exact hkeyout (by
                rw [show (cc.ns, cc.name) = (x.ns, x.name) by rw [h1, h2]]
                exact List.mem_map_of_mem _ hx)
            show findConfigByKey (removeConfig st.clusterConfigurations cc.ns cc.name)
              x.ns x.name = some x
            rw [findConfigByKey_removeConfig_ne _ _ _ _ _ hne]
            exact hsub x (List.mem_cons_of_mem _ hx))
          hndr
          (by
            show ((removeConfig st.clusterConfigurations cc.ns cc.name).map
              (fun c => (c.ns, c.name))).Nodup
            exact hndst.sublist (List.Sublist.map _
              (removeConfig_sublist st.clusterConfigurations cc.ns cc.name)))
        refine ⟨st', heq, fun ns name => ?_⟩
        rw [hpt ns name]
        by_cases hcs : cc.ns = ns ∧ cc.name = name
        · obtain ⟨h1, h2⟩ := hcs
          subst h1; subst h2
          have hl : findConfig
              ({ st with clusterConfigurations :=
                  removeConfig st.clusterConfigurations cc.ns cc.name }) cc.ns cc.name = none :=
            findConfigByKey_removeConfig_self st.clusterConfigurations cc.ns cc.name hndst
          rw [hl, hfindcc]
          simp [hd, hin, List.mem_cons]
        · have hl : findConfig
              ({ st with clusterConfigurations :=
                  removeConfig st.clusterConfigurations cc.ns cc.name }) ns name =
              findConfig st ns name :=
            findConfigByKey_removeConfig_ne st.clusterConfigurations cc.ns cc.name ns name hcs
          rw [hl]
          cases hfind2 : findConfig st ns name with
          | none => rfl
          | some s =>
            have hspec := findConfigByKey_spec st.clusterConfigurations ns name s hfind2
            have hsne : s ≠ cc := by
              intro h
              rw [h] at hspec
              exact hcs ⟨hspec.1, hspec.2.1⟩
            by_cases hmem : s ∈ rest
            · simp [hmem, List.mem_cons, hsne]
            · simp [hmem, List.mem_cons, hsne]
      | some cc2 =>
        have hkey2 := detachResult_key p cc cc2 hd
        have hcc2notr : cc2 ∉ rest := by
          intro hc
          apply hkeyout
          rw [show (cc.ns, cc.name) = (cc2.ns, cc2.name) by rw [hkey2.1, hkey2.2]]
          exact List.mem_map_of_mem _ hc
        have hstep2 : cleanClusterConfiguration st p cc =
            ({ st with clusterConfigurations :=
                replaceConfig st.clusterConfigurations cc2 }, none) := by
          rw [hstep, hd]
        rw [cleanConfigsLoop_cons_detach p keys cc rest st _ none hin hstep2]
        obtain ⟨st', heq, hpt⟩ := ih
          ({ st with clusterConfigurations := replaceConfig st.clusterConfigurations cc2 })
          (by
            intro x hx
            have hne : ¬(cc2.ns = x.ns ∧ cc2.name = x.name) := by
              rintro ⟨h1, h2⟩
              exact hkeyout (by
                rw [show (cc.ns, cc.name) = (x.ns, x.name) by
                  rw [← h1, ← h2, hkey2.1, hkey2.2]]
                exact List.mem_map_of_mem _ hx)
            show findConfigByKey (replaceConfig st.clusterConfigurations cc2) x.ns x.name = some x
            rw [findConfigByKey_replaceConfig_ne _ _ _ _ hne]
            exact hsub x (List.mem_cons_of_mem _ hx))
          hndr
          (by
            show ((replaceConfig st.clusterConfigurations cc2).map
              (fun c => (c.ns, c.name))).Nodup
            rw [replaceConfig_map_key]
            exact hndst)
        refine ⟨st', heq, fun ns name => ?_⟩
        rw [hpt ns name]
        by_cases hcs : cc.ns = ns ∧ cc.name = name
        · obtain ⟨h1, h2⟩ := hcs
          subst h1; subst h2
          have hl : findConfig
              ({ st with clusterConfigurations := replaceConfig st.clusterConfigurations cc2 })
              cc.ns cc.name = some cc2 := by
            have hbase : findConfigByKey st.clusterConfigurations cc2.ns cc2.name = some cc := by
              rw [hkey2.1, hkey2.2]
              exact hfindcc
            have := findConfigByKey_replaceConfig_found st.clusterConfigurations cc2 cc hbase
            rw [hkey2.1, hkey2.2] at this
            exact this
          rw [hl, hfindcc]
          simp [hd, hin, List.mem_cons, hcc2notr]
        · have hl : findConfig
              ({ st with clusterConfigurations := replaceConfig st.clusterConfigurations cc2 })
              ns name = findConfig st ns name := by
            show findConfigByKey (replaceConfig st.clusterConfigurations cc2) ns name = _
            rw [findConfigByKey_replaceConfig_ne]
            · rfl
            · rw [hkey2.1, hkey2.2]
              exact hcs
          rw [hl]
          cases hfind2 : findConfig st ns name with
          | none => rfl
          | some s =>
            have hspec := findConfigByKey_spec st.clusterConfigurations ns name s hfind2
            have hsne : s ≠ cc := by
              intro h
              rw [h] at hspec
              exact hcs ⟨hspec.1, hspec.2.1⟩
            by_cases hmem : s ∈ rest
            · simp [hmem, List.mem_cons, hsne]
            · simp [hmem, List.mem_cons, hsne]

/-- C3: detaching characterised state-wide.  After
`cleanClusterConfigurations` succeeds, a configuration whose cluster key
is in the current match set is stored unchanged; any other configuration
owned by the profile loses the profile's owner reference — it is deleted
when no owner remains and otherwise stored updated with the per-profile
status entry removed (`detachResult`). -/
theorem cleanClusterConfigurations_detach (st : ApiState) (p : ClusterProfile)
    (hnd : (st.clusterConfigurations.map fun c => (c.ns, c.name)).Nodup) :
    ∃ st', cleanClusterConfigurations st p = (st', none) ∧
      ∀ ns name, findConfig st' ns name =
        (findConfig st ns name).bind (fun cc =>
          if configKey cc.ns cc.name ∈
              p.matchingClusterRefs.map (fun r => configKey r.ns r.name)
          then some cc else detachResult p cc) := by
  obtain ⟨st', heq, hpt⟩ := cleanConfigsLoop_pointwise p
    (p.matchingClusterRefs.map (fun r => configKey r.ns r.name)) st.clusterConfigurations st
    (fun cc hcc => findConfigByKey_self_of_nodup st.clusterConfigurations cc hcc hnd)
    hnd hnd
  refine ⟨st', heq, fun ns name => ?_⟩
  rw [hpt ns name]
  cases hfind2 : findConfig st ns name with
  | none => rfl
  | some s =>
    have hspec := findConfigByKey_spec st.clusterConfigurations ns name s hfind2
    simp [hspec.2.2]

/-- Witness for C3: profile `p1` owns configurations for `a/c1` (still a
match) and `a/c2` (not a match, shared with owner `p2`). -/
theorem cleanClusterConfigurations_detach_witness :
    ∃ st', cleanClusterConfigurations
      ⟨[], [],
        [⟨"a", "c1",
          [⟨"ClusterProfile", "p1", "config.projectsveltos.io/v1alpha1", "uid1"⟩],
          [⟨"p1", 5⟩]⟩,
         ⟨"a", "c2",
          [⟨"ClusterProfile", "p1", "config.projectsveltos.io/v1alpha1", "uid1"⟩,
           ⟨"ClusterProfile", "p2", "config.projectsveltos.io/v1alpha1", "uid2"⟩],
          [⟨"p1", 5⟩, ⟨"p2", 6⟩]⟩]⟩
      ⟨"p1", "ClusterProfile", "config.projectsveltos.io/v1alpha1", "uid1", [],
        ⟨"env=prod", SyncMode.continuous, 0⟩, [⟨"Cluster", "a", "c1"⟩], []⟩ = (st', none) ∧
      ∀ ns name, findConfig st' ns name =
        (findConfig
          ⟨[], [],
            [⟨"a", "c1",
              [⟨"ClusterProfile", "p1", "config.projectsveltos.io/v1alpha1", "uid1"⟩],
              [⟨"p1", 5⟩]⟩,
             ⟨"a", "c2",
              [⟨"ClusterProfile", "p1", "config.projectsveltos.io/v1alpha1", "uid1"⟩,
               ⟨"ClusterProfile", "p2", "config.projectsveltos.io/v1alpha1", "uid2"⟩],
              [⟨"p1", 5⟩, ⟨"p2", 6⟩]⟩]⟩ ns name).bind (fun cc =>
          if configKey cc.ns cc.name ∈
              (([⟨"Cluster", "a", "c1"⟩] : List ObjectReference).map
                (fun r => configKey r.ns r.name))
          then some cc
          else detachResult
            ⟨"p1", "ClusterProfile", "config.projectsveltos.io/v1alpha1", "uid1", [],
              ⟨"env=prod", SyncMode.continuous, 0⟩, [⟨"Cluster", "a", "c1"⟩], []⟩ cc) :=
  cleanClusterConfigurations_detach _ _ (by decide)

/-- C6: evaluation at the failing input.  The stale object passed in has
no owner references, while the current stored version has meanwhile been
given owner `p2`; `updateClusterConfigurationOwnerReferences` for `p1`
succeeds but writes owner references computed from the stale object, so
the stored configuration ends up owning only `p1` — `p2`'s reference,
present on the re-read current version, is dropped instead of preserved
as the claim states. -/
theorem updateClusterConfigurationOwnerReferences_drops_concurrent_owner :
    (updateClusterConfigurationOwnerReferences
      ⟨[], [],
        [⟨"a", "c1",
          [⟨"ClusterProfile", "p2", "config.projectsveltos.io/v1alpha1", "uid2"⟩], []⟩]⟩
      ⟨"p1", "ClusterProfile", "config.projectsveltos.io/v1alpha1", "uid1", [],
        ⟨"", SyncMode.continuous, 0⟩, [], []⟩
      ⟨"a", "c1", [], []⟩).2 = none ∧
    (updateClusterConfigurationOwnerReferences
      ⟨[], [],
        [⟨"a", "c1",
          [⟨"ClusterProfile", "p2", "config.projectsveltos.io/v1alpha1", "uid2"⟩], []⟩]⟩
      ⟨"p1", "ClusterProfile", "config.projectsveltos.io/v1alpha1", "uid1", [],
        ⟨"", SyncMode.continuous, 0⟩, [], []⟩
      ⟨"a", "c1", [], []⟩).1.clusterConfigurations =
      [⟨"a", "c1",
        [⟨"ClusterProfile", "p1", "config.projectsveltos.io/v1alpha1", "uid1"⟩], []⟩] := by
  decide

/-- C9: `updatesMaps` re-establishes the bidirectional index invariant:
assuming `P ∈ ClusterMap[C] ↔ C ∈ ClusterProfileMap[P]` beforehand, after
the call the profile's entry equals exactly the current match set, the
profile appears in `ClusterMap[C]` exactly for current matches, and every
other profile's entries on both sides are unchanged. -/
theorem updatesMaps_consistency (m : ReconcilerMaps) (q : ClusterProfile)
    (hcons : ∀ P C : PolicyRef, P ∈ m.clusterMap C ↔ C ∈ m.clusterProfileMap P) :
    ((updatesMaps m q).clusterProfileMap (profileInfoOf q) =
      (q.matchingClusterRefs.map clusterInfoOf).toFinset) ∧
    (∀ C : PolicyRef, profileInfoOf q ∈ (updatesMaps m q).clusterMap C ↔
      C ∈ (q.matchingClusterRefs.map clusterInfoOf).toFinset) ∧
    (∀ P : PolicyRef, P ≠ profileInfoOf q →
      (updatesMaps m q).clusterProfileMap P = m.clusterProfileMap P ∧
      ∀ C : PolicyRef, (P ∈ (updatesMaps m q).clusterMap C ↔ P ∈ m.clusterMap C)) := by
  refine ⟨?_, ?_, ?_⟩
  · simp [updatesMaps]
  · intro C
    simp only [updatesMaps, List.mem_toFinset]
    by_cases hC : C ∈ q.matchingClusterRefs.map clusterInfoOf
    · have hnotrem : ¬(C ∈ m.clusterProfileMap (profileInfoOf q) \
          (q.matchingClusterRefs.map clusterInfoOf).toFinset) := by
        simp [Finset.mem_sdiff, List.mem_toFinset, hC]
      simp [hC, hnotrem]
    · by_cases hrem : C ∈ m.clusterProfileMap (profileInfoOf q) \
          (q.matchingClusterRefs.map clusterInfoOf).toFinset
      · simp [hC, hrem]
      · have hnotin : C ∉ m.clusterProfileMap (profileInfoOf q) := by
          intro hc
          exact hrem (Finset.mem_sdiff.mpr ⟨hc, by simpa [List.mem_toFinset] using hC⟩)
        have : profileInfoOf q ∉ m.clusterMap C := by
          intro hc
          exact hnotin ((hcons _ _).mp hc)
        simp [hC, hrem, this]
  · intro P hP
    refine ⟨by simp [updatesMaps, hP], fun C => ?_⟩
    simp only [updatesMaps]
    by_cases hC : C ∈ q.matchingClusterRefs.map clusterInfoOf
    · by_cases hrem : C ∈ m.clusterProfileMap (profileInfoOf q) \
          (q.matchingClusterRefs.map clusterInfoOf).toFinset
      · simp [hC, hrem, Finset.mem_erase, Finset.mem_insert, hP]
      · simp [hC, hrem, Finset.mem_insert, hP]
    · by_cases hrem : C ∈ m.clusterProfileMap (profileInfoOf q) \
          (q.matchingClusterRefs.map clusterInfoOf).toFinset
      · simp [hC, hrem, Finset.mem_erase, hP]
      · simp [hC, hrem]

/-- Witness for C9: the empty index refreshed for a profile matching one
cluster. -/
theorem updatesMaps_consistency_witness :
    ((updatesMaps ⟨fun _ => ∅, fun _ => ∅, fun _ => none⟩
        ⟨"q", "ClusterProfile", "config.projectsveltos.io/v1alpha1", "u", [],
          ⟨"env=prod", SyncMode.continuous, 0⟩, [⟨"Cluster", "a", "c1"⟩], []⟩).clusterProfileMap
      (profileInfoOf
        ⟨"q", "ClusterProfile", "config.projectsveltos.io/v1alpha1", "u", [],
          ⟨"env=prod", SyncMode.continuous, 0⟩, [⟨"Cluster", "a", "c1"⟩], []⟩) =
      (([⟨"Cluster", "a", "c1"⟩] : List ObjectReference).map clusterInfoOf).toFinset) ∧
    (∀ C : PolicyRef,
      profileInfoOf
        ⟨"q", "ClusterProfile", "config.projectsveltos.io/v1alpha1", "u", [],
          ⟨"env=prod", SyncMode.continuous, 0⟩, [⟨"Cluster", "a", "c1"⟩], []⟩ ∈
        (updatesMaps ⟨fun _ => ∅, fun _ => ∅, fun _ => none⟩
          ⟨"q", "ClusterProfile", "config.projectsveltos.io/v1alpha1", "u", [],
            ⟨"env=prod", SyncMode.continuous, 0⟩, [⟨"Cluster", "a", "c1"⟩], []⟩).clusterMap C ↔
      C ∈ (([⟨"Cluster", "a", "c1"⟩] : List ObjectReference).map clusterInfoOf).toFinset) ∧
    (∀ P : PolicyRef,
      P ≠ profileInfoOf
        ⟨"q", "ClusterProfile", "config.projectsveltos.io/v1alpha1", "u", [],
          ⟨"env=prod", SyncMode.continuous, 0⟩, [⟨"Cluster", "a", "c1"⟩], []⟩ →
      (updatesMaps ⟨fun _ => ∅, fun _ => ∅, fun _ => none⟩
        ⟨"q", "ClusterProfile", "config.projectsveltos.io/v1alpha1", "u", [],
          ⟨"env=prod", SyncMode.continuous, 0⟩, [⟨"Cluster", "a", "c1"⟩], []⟩).clusterProfileMap
        P = (∅ : Finset PolicyRef) ∧
      ∀ C : PolicyRef,
        (P ∈ (updatesMaps ⟨fun _ => ∅, fun _ => ∅, fun _ => none⟩
          ⟨"q", "ClusterProfile", "config.projectsveltos.io/v1alpha1", "u", [],
            ⟨"env=prod", SyncMode.continuous, 0⟩, [⟨"Cluster", "a", "c1"⟩], []⟩).clusterMap C ↔
          P ∈ (∅ : Finset PolicyRef))) :=
  updatesMaps_consistency ⟨fun _ => ∅, fun _ => ∅, fun _ => none⟩
    ⟨"q", "ClusterProfile", "config.projectsveltos.io/v1alpha1", "u", [],
      ⟨"env=prod", SyncMode.continuous, 0⟩, [⟨"Cluster", "a", "c1"⟩], []⟩
    (by simp)

end AddonController
